import Mathlib

/-!
Shallow embedding of the staged bed-calibration workflow engine
(`src/calibration`): the bed and screw primitive models, the screw solver
with its bilinear corner-influence weights, the tape calculator, the belt
stage calculators, the thermal-warp stage and the workflow engine itself.

Python floats are embedded as exact rationals; machine-level floating
point rounding is not modelled.  All indices are naturals, with numpy's
clamped slicing rendered through truncated subtraction and `min`.
-/

/- The Batteries rational primitives are marked irreducible, which blocks
kernel evaluation of concrete witnesses; restore the ordinary reducibility
of their bodies (this changes nothing about their meaning). -/
set_option allowUnsafeReducibility true in
attribute [semireducible] Rat.mul Rat.inv Rat.add Rat.sub Rat.neg Rat.div Rat.ofScientific

/-! ## Mesh: a 2D grid of height deviations (mm), row-major lists -/

/-- A height-deviation mesh: a list of rows, each a list of rational heights. -/
abbrev Mesh := List (List ℚ)

/-- Cell lookup, defaulting to 0 outside the grid (in-range indices are the
only ones the embedded code uses on well-formed meshes). -/
def Mesh.get (m : Mesh) (i j : ℕ) : ℚ := (m.getD i []).getD j 0

/-- The mesh is a well-formed `r` by `c` rectangle. -/
def Mesh.Wf (m : Mesh) (r c : ℕ) : Prop := m.length = r ∧ ∀ row ∈ m, row.length = c

instance (m : Mesh) (r c : ℕ) : Decidable (m.Wf r c) := by
  unfold Mesh.Wf; infer_instance

/-- Build an `r` by `c` mesh from a function on indices. -/
def Mesh.ofFn (r c : ℕ) (f : ℕ → ℕ → ℚ) : Mesh :=
  (List.range r).map fun i => (List.range c).map (f i)

/-- All cells of the mesh, row-major (numpy flattening). -/
def Mesh.cells (m : Mesh) : List ℚ := m.flatten

/-- Sum over all cells. -/
def Mesh.cellSum (m : Mesh) : ℚ := m.cells.sum

/-- Number of cells. -/
def Mesh.cellCount (m : Mesh) : ℕ := m.cells.length

/-- Mean over all cells (`np.mean`). -/
def Mesh.mean (m : Mesh) : ℚ := m.cellSum / m.cellCount

/-- Maximum cell value (`np.max`). -/
def Mesh.maxVal (m : Mesh) : ℚ := m.cells.foldl max (m.cells.headD 0)

/-- Minimum cell value (`np.min`). -/
def Mesh.minVal (m : Mesh) : ℚ := m.cells.foldl min (m.cells.headD 0)

/-- Pointwise combination of two meshes of equal shape (numpy broadcasting
of elementwise operators). -/
def Mesh.map2 (f : ℚ → ℚ → ℚ) (a b : Mesh) : Mesh :=
  List.zipWith (List.zipWith f) a b

/-- Pointwise map over a mesh (numpy scalar broadcasting). -/
def Mesh.mapQ (f : ℚ → ℚ) (m : Mesh) : Mesh := m.map (List.map f)

/-- Add `d` times the weight mesh `w` to `m` (numpy `m + d * w`). -/
def Mesh.addScaled (m w : Mesh) (d : ℚ) : Mesh :=
  Mesh.map2 (fun a b => a + d * b) m w

/-- Rectangular sub-block `[x0:x1, y0:y1]` of a mesh (numpy slicing). -/
def Mesh.block (m : Mesh) (x0 x1 y0 y1 : ℕ) : Mesh :=
  ((m.drop x0).take (x1 - x0)).map fun row => (row.drop y0).take (y1 - y0)

/-! ## Screw model (`hardware/screw.py`) -/

/-- Rotation sense of an adjustment screw. -/
inductive RotationDirection
  | clockwise
  | counterclockwise
deriving DecidableEq, Repr

/-- Screw configuration: thread pitch and the per-action adjustment clamps
(defaults from `ScrewConfig`). -/
structure ScrewConfig where
  pitch : ℚ := 0.7
  min_adjust : ℚ := 0.1
  max_adjust : ℚ := 2.0
deriving DecidableEq, Repr

/-- Millimetres of height change per minute of rotation (`MM_PER_MINUTE`). -/
def ScrewConfig.mmPerMinute (cfg : ScrewConfig) : ℚ := cfg.pitch / 60

/-- Translation of `Screw.calculate_adjustment`: required rotation (minutes)
and direction from current and target heights. -/
def Screw.calculate_adjustment (cfg : ScrewConfig) (current_height target_height : ℚ) :
    ℚ × RotationDirection :=
  let diff := current_height - target_height
  if |diff| < cfg.min_adjust then
    (0, RotationDirection.clockwise)
  else
    let direction := if diff > 0 then RotationDirection.clockwise
      else RotationDirection.counterclockwise
    (min (|diff| / cfg.mmPerMinute) (cfg.max_adjust / cfg.mmPerMinute), direction)

/-- Translation of `Screw.minutes_to_degrees`: one minute is six degrees. -/
def Screw.minutes_to_degrees (minutes : ℚ) : ℚ := minutes * 6

/-- Translation of `Screw.height_change_from_minutes`: signed height change
of a rotation (clockwise lowers). -/
def Screw.height_change_from_minutes (cfg : ScrewConfig) (minutes : ℚ)
    (direction : RotationDirection) : ℚ :=
  let height_change := minutes * cfg.mmPerMinute
  if direction = RotationDirection.clockwise then -height_change else height_change

/-! ## Bed model (`hardware/bed.py`) -/

/-- Bed configuration: physical size (mm) and mesh point counts. -/
structure BedConfig where
  size_x : ℚ := 220.0
  size_y : ℚ := 220.0
  mesh_points_x : ℕ := 5
  mesh_points_y : ℕ := 5
deriving DecidableEq, Repr

/-- The four corners of the bed. -/
inductive Corner
  | front_left
  | front_right
  | back_left
  | back_right
deriving DecidableEq, Repr

/-- Grid index of each corner (the `Bed.corners` mapping). -/
def Corner.coords (cfg : BedConfig) : Corner → ℕ × ℕ
  | .front_left => (0, 0)
  | .front_right => (0, cfg.mesh_points_y - 1)
  | .back_left => (cfg.mesh_points_x - 1, 0)
  | .back_right => (cfg.mesh_points_x - 1, cfg.mesh_points_y - 1)

/-- Corners in the iteration order of the `Bed.corners` dict. -/
def cornersList : List Corner :=
  [Corner.front_left, Corner.front_right, Corner.back_left, Corner.back_right]

/-- Translation of `Bed.get_corner_height`: mean height of the mesh block
within `area_size` grid steps of the corner, clamped to the grid. -/
def Bed.get_corner_height (cfg : BedConfig) (mesh : Mesh) (corner : Corner)
    (area_size : ℕ := 1) : ℚ :=
  let xy := corner.coords cfg
  let x_start := xy.1 - area_size
  let x_end := min cfg.mesh_points_x (xy.1 + area_size + 1)
  let y_start := xy.2 - area_size
  let y_end := min cfg.mesh_points_y (xy.2 + area_size + 1)
  (mesh.block x_start x_end y_start y_end).mean

/-- Translation of `Bed.generate_ideal_plane`: the constant plane at the
mesh's global mean height, with the mesh's own shape (`np.full_like`). -/
def Bed.generate_ideal_plane (mesh : Mesh) : Mesh :=
  Mesh.ofFn mesh.length (mesh.headD []).length (fun _ _ => mesh.mean)

/-- Translation of `Bed.get_mm_per_point`: physical spacing between grid
points in X and Y. -/
def Bed.get_mm_per_point (cfg : BedConfig) : ℚ × ℚ :=
  (cfg.size_x / ((cfg.mesh_points_x : ℚ) - 1), cfg.size_y / ((cfg.mesh_points_y : ℚ) - 1))

/-- The two failure modes of the bed model: querying before a mesh is
assigned, and assigning a mesh of the wrong shape.  In the source both are
raised immediately as `ValueError`s with distinct messages. -/
inductive BedError
  | dataNotSet
  | shapeMismatch
deriving DecidableEq, Repr

/-- Translation of `Bed.set_mesh_data`: reject a mesh whose shape disagrees
with the configured point counts, otherwise store it. -/
def Bed.set_mesh_data (cfg : BedConfig) (data : Mesh) : Except BedError Mesh :=
  if data.Wf cfg.mesh_points_x cfg.mesh_points_y then Except.ok data
  else Except.error BedError.shapeMismatch

/-- Fallible corner-height query: `Bed.get_corner_height` raises when the
mesh has not been assigned. -/
def Bed.get_corner_height_checked (cfg : BedConfig) (mesh : Option Mesh) (corner : Corner)
    (area_size : ℕ := 1) : Except BedError ℚ :=
  match mesh with
  | none => Except.error BedError.dataNotSet
  | some m => Except.ok (Bed.get_corner_height cfg m corner area_size)

/-- Fallible ideal-plane query: `Bed.generate_ideal_plane` raises when the
mesh has not been assigned. -/
def Bed.generate_ideal_plane_checked (mesh : Option Mesh) : Except BedError Mesh :=
  match mesh with
  | none => Except.error BedError.dataNotSet
  | some m => Except.ok (Bed.generate_ideal_plane m)

/-! ## Screw solver corner weights (`algorithms/screw_solver.py`) -/

/-- Element `i` of `np.linspace(0, 1, n)`. -/
def linFactor (n i : ℕ) : ℚ := (i : ℚ) / ((n : ℚ) - 1)

/-- Raw bilinear interpolation factor of a corner at grid point `(i, j)`. -/
def rawCornerWeight (rows cols : ℕ) (c : Corner) (i j : ℕ) : ℚ :=
  let r := linFactor rows i
  let cl := linFactor cols j
  match c with
  | .front_left => (1 - r) * (1 - cl)
  | .front_right => (1 - r) * cl
  | .back_left => r * (1 - cl)
  | .back_right => r * cl

/-- Sum of the four raw corner weights at a grid point. -/
def totalRawWeight (rows cols i j : ℕ) : ℚ :=
  rawCornerWeight rows cols Corner.front_left i j
    + rawCornerWeight rows cols Corner.front_right i j
    + rawCornerWeight rows cols Corner.back_left i j
    + rawCornerWeight rows cols Corner.back_right i j

/-- Translation of `ScrewSolver._compute_corner_weights`, per grid point:
degenerate grids get uniform weight 1, otherwise the bilinear factor is
normalised by the total (with 0 replacing a division by a zero total). -/
def corner_weight (rows cols : ℕ) (c : Corner) (i j : ℕ) : ℚ :=
  if rows < 2 ∨ cols < 2 then 1
  else
    let total := totalRawWeight rows cols i j
    let correction := if total ≠ 0 then 1 / total else 0
    rawCornerWeight rows cols c i j * correction

/-- The weight map of one corner as a mesh of the configured shape. -/
def corner_weight_mesh (cfg : BedConfig) (c : Corner) : Mesh :=
  Mesh.ofFn cfg.mesh_points_x cfg.mesh_points_y
    (fun i j => corner_weight cfg.mesh_points_x cfg.mesh_points_y c i j)

/-! ## Stable sorting (Python `sorted` with a key) -/

/-- Insert `x` after every element strictly smaller under `lt` (stable
insertion, keeping `x` before key-equal elements, as Python `sorted`). -/
def sIns (lt : α → α → Bool) (x : α) : List α → List α
  | [] => [x]
  | y :: ys => if lt y x then y :: sIns lt x ys else x :: y :: ys

/-- Stable sort by the strict comparator `lt`; extensionally the stable
key-sort performed by Python `sorted`. -/
def sortByKey (lt : α → α → Bool) : List α → List α
  | [] => []
  | x :: xs => sIns lt x (sortByKey lt xs)

/-- First element with the minimal key (Python `min(iterable, key=...)`),
`none` on the empty list. -/
def firstMinBy (key : α → ℚ) (l : List α) : Option α :=
  l.foldl
    (fun acc x =>
      match acc with
      | none => some x
      | some b => if key x < key b then some x else some b)
    none

/-! ## Screw solver adjustments and simulation (`algorithms/screw_solver.py`) -/

/-- One computed screw adjustment (`ScrewAdjustment`). -/
structure ScrewAdjustment where
  corner : Corner
  minutes : ℚ
  degrees : ℚ
  direction : RotationDirection
  current_height : ℚ
  target_height : ℚ
  priority : ℕ
  turns : ℚ
deriving DecidableEq, Repr

/-- Translation of `ScrewSolver._calculate_priority`. -/
def ScrewSolver.calculate_priority (deviation : ℚ) : ℕ :=
  if deviation > 0.4 then 1
  else if deviation > 0.3 then 2
  else if deviation > 0.2 then 3
  else 4

/-- Strict comparator for the solver's sort key
`(priority, -abs(current_height - target_height))`. -/
def screwSortLt (a b : ScrewAdjustment) : Bool :=
  decide (a.priority < b.priority
    ∨ (a.priority = b.priority
        ∧ |b.current_height - b.target_height| < |a.current_height - a.target_height|))

/-- Translation of `ScrewSolver.calculate_adjustments`: one candidate per
corner against the ideal plane, zero-amount candidates dropped, sorted by
priority then magnitude. -/
def ScrewSolver.calculate_adjustments (cfg : BedConfig) (scfg : ScrewConfig)
    (bedMesh : Mesh) : List ScrewAdjustment :=
  let ideal_plane := Bed.generate_ideal_plane bedMesh
  let candidates := cornersList.filterMap fun c =>
    let xy := c.coords cfg
    let current_height := Bed.get_corner_height cfg bedMesh c
    let target_height := ideal_plane.get xy.1 xy.2
    let md := Screw.calculate_adjustment scfg current_height target_height
    if md.1 > 0 then
      let deviation := |current_height - target_height|
      some
        { corner := c
          minutes := md.1
          degrees := Screw.minutes_to_degrees md.1
          direction := md.2
          current_height := current_height
          target_height := target_height
          priority := ScrewSolver.calculate_priority deviation
          turns := md.1 / 60 }
    else none
  sortByKey screwSortLt candidates

/-- Translation of `ScrewSolver.simulate_adjustment`: add the adjustment's
height change scaled by its corner's weight map. -/
def ScrewSolver.simulate_adjustment (cfg : BedConfig) (scfg : ScrewConfig)
    (adjustment : ScrewAdjustment) (base_mesh : Mesh) : Mesh :=
  let height_change :=
    Screw.height_change_from_minutes scfg adjustment.minutes adjustment.direction
  base_mesh.addScaled (corner_weight_mesh cfg adjustment.corner) height_change

/-- Translation of `ScrewSolver.simulate_sequence`: apply the adjustments in
order, each seeing the mesh left by the previous one. -/
def ScrewSolver.simulate_sequence (cfg : BedConfig) (scfg : ScrewConfig)
    (adjustments : List ScrewAdjustment) (base_mesh : Mesh) : Mesh :=
  adjustments.foldl
    (fun m adj => ScrewSolver.simulate_adjustment cfg scfg adj m) base_mesh

/-! ## Tape calculator (`algorithms/tape_calculator.py`) -/

/-- One tape spot (`TapeSpot`). -/
structure TapeSpot where
  x : ℕ
  y : ℕ
  layers : ℤ
  height_diff : ℚ
  priority : ℕ
  area_size : ℚ
deriving DecidableEq, Repr

/-- Tape calculator configuration (defaults from `TapeCalculator.__init__`). -/
structure TapeConfig where
  tape_thickness : ℚ := 0.06
  min_height_diff : ℚ := 0.1
deriving DecidableEq, Repr

/-- Translation of `TapeCalculator._calculate_priority`. -/
def TapeCalculator.calculate_priority (height_diff : ℚ) : ℕ :=
  if height_diff > 0.3 then 1
  else if height_diff > 0.2 then 2
  else 3

/-- Translation of `TapeCalculator._is_near_screw`: the cell coincides with
a corner screw position. -/
def TapeCalculator.is_near_screw (cfg : BedConfig) (x y : ℕ) : Bool :=
  cornersList.any fun c => decide (c.coords cfg = (x, y))

/-- Translation of `TapeCalculator._calculate_area_size`. -/
def TapeCalculator.calculate_area_size (cfg : BedConfig) (height_diff : ℚ) : ℚ :=
  let steps := Bed.get_mm_per_point cfg
  let base_area := steps.1 * steps.2
  if height_diff > 0.3 then base_area * 1.5 else base_area

/-- Strict comparator for the tape sort key `(priority, -height_diff)`. -/
def tapeSortLt (a b : TapeSpot) : Bool :=
  decide (a.priority < b.priority
    ∨ (a.priority = b.priority ∧ b.height_diff < a.height_diff))

/-- Loop body of `TapeCalculator.find_low_spots` for one grid cell: a spot
when the cell is off the screws and deep enough below the mean. -/
def low_spot_at (cfg : BedConfig) (tcfg : TapeConfig) (mean_height : ℚ)
    (simulated_mesh : Mesh) (x y : ℕ) : Option TapeSpot :=
  if TapeCalculator.is_near_screw cfg x y then none
  else
    let diff := mean_height - simulated_mesh.get x y
    if diff > tcfg.min_height_diff then
      some
        { x := x
          y := y
          layers := max 1 ⌈diff / tcfg.tape_thickness⌉
          height_diff := diff
          priority := TapeCalculator.calculate_priority diff
          area_size := TapeCalculator.calculate_area_size cfg diff }
    else none

/-- The spot candidates of `TapeCalculator.find_low_spots` in grid
iteration order, before sorting. -/
def find_low_spots_unsorted (cfg : BedConfig) (tcfg : TapeConfig)
    (simulated_mesh : Mesh) : List TapeSpot :=
  (List.range cfg.mesh_points_x).flatMap fun x =>
    (List.range cfg.mesh_points_y).filterMap fun y =>
      low_spot_at cfg tcfg simulated_mesh.mean simulated_mesh x y

/-- Translation of `TapeCalculator.find_low_spots`: one spot per non-screw
cell lying more than the threshold below the mesh mean, sorted by priority
then deficit. -/
def TapeCalculator.find_low_spots (cfg : BedConfig) (tcfg : TapeConfig)
    (simulated_mesh : Mesh) : List TapeSpot :=
  sortByKey tapeSortLt (find_low_spots_unsorted cfg tcfg simulated_mesh)

/-- Minimum of a list of naturals with Python `min` semantics on nonempty
lists (0 only for the never-taken empty case). -/
def listMinNat : List ℕ → ℕ
  | [] => 0
  | h :: t => t.foldl min h

/-- One step of the greedy cluster merge in
`TapeCalculator.optimize_tape_layout`; the state is the accumulated output
and the set of already-used coordinates. -/
def optimizeStep (tcfg : TapeConfig) (spots : List TapeSpot)
    (acc : List TapeSpot × List (ℕ × ℕ)) (spot : TapeSpot) :
    List TapeSpot × List (ℕ × ℕ) :=
  if (spot.x, spot.y) ∈ acc.2 then acc
  else
    let nearby := spots.filter fun s =>
      decide (|(s.x : ℤ) - (spot.x : ℤ)| ≤ 1 ∧ |(s.y : ℤ) - (spot.y : ℤ)| ≤ 1
        ∧ (s.x, s.y) ∉ acc.2)
    if nearby.isEmpty then (acc.1 ++ [spot], acc.2 ++ [(spot.x, spot.y)])
    else
      let avg_diff := (nearby.map (·.height_diff)).sum / nearby.length
      let avg_layers : ℤ := max 1 ⌈avg_diff / tcfg.tape_thickness⌉
      let total_area := (nearby.map (·.area_size)).sum
      let x_mean := ((nearby.map fun s => (s.x : ℚ)).sum) / nearby.length
      let y_mean := ((nearby.map fun s => (s.y : ℚ)).sum) / nearby.length
      let center :=
        if nearby.length > 1 then
          (firstMinBy (fun s => |(s.x : ℚ) - x_mean| + |(s.y : ℚ) - y_mean|) nearby).getD spot
        else spot
      (acc.1 ++
          [{ x := center.x
             y := center.y
             layers := avg_layers
             height_diff := avg_diff
             priority := listMinNat (nearby.map (·.priority))
             area_size := total_area }],
        acc.2 ++ nearby.map fun s => (s.x, s.y))

/-- Translation of `TapeCalculator.optimize_tape_layout`: greedily merge
each unused spot with the not-yet-used spots of its 8-neighbourhood. -/
def TapeCalculator.optimize_tape_layout (tcfg : TapeConfig)
    (spots : List TapeSpot) : List TapeSpot :=
  (spots.foldl (optimizeStep tcfg spots) ([], [])).1

/-- Add `v` to the entries of a row whose index (counted from `j`) lies in
`[y0, y1)`. -/
def bumpRow (y0 y1 : ℕ) (v : ℚ) : ℕ → List ℚ → List ℚ
  | _, [] => []
  | j, a :: tl =>
    (if y0 ≤ j ∧ j < y1 then a + v else a) :: bumpRow y0 y1 v (j + 1) tl

/-- Add `v` to the cells of the block `[x0:x1, y0:y1]`, threading the row
index from `i`. -/
def blockAddRows (x0 x1 y0 y1 : ℕ) (v : ℚ) : ℕ → Mesh → Mesh
  | _, [] => []
  | i, row :: tl =>
    (if x0 ≤ i ∧ i < x1 then bumpRow y0 y1 v 0 row else row)
      :: blockAddRows x0 x1 y0 y1 v (i + 1) tl

/-- In-place numpy slice addition `mesh[x0:x1, y0:y1] += v` on a copy. -/
def Mesh.blockAdd (m : Mesh) (x0 x1 y0 y1 : ℕ) (v : ℚ) : Mesh :=
  blockAddRows x0 x1 y0 y1 v 0 m

/-- Translation of `TapeCalculator.apply_spots`: raise the bound-clamped 3x3
neighbourhood of each spot by its layer count times the tape thickness. -/
def TapeCalculator.apply_spots (cfg : BedConfig) (tcfg : TapeConfig)
    (base_mesh : Mesh) (spots : List TapeSpot) : Mesh :=
  spots.foldl
    (fun m spot =>
      let height_increase := (spot.layers : ℚ) * tcfg.tape_thickness
      m.blockAdd (spot.x - 1) (min cfg.mesh_points_x (spot.x + 2))
        (spot.y - 1) (min cfg.mesh_points_y (spot.y + 2)) height_increase)
    base_mesh

/-! ## Workflow data model (`workflow/models.py`) -/

/-- One atomic corrective instruction (`StageAction`); the `sign` and
`gain` fields render the metadata entries the belt stage reads back. -/
structure StageAction where
  kind : String
  identifier : String
  label : String := ""
  direction : Option String := none
  magnitude_mm : ℚ := 0
  teeth : Option ℕ := none
  minutes : Option ℚ := none
  degrees : Option ℚ := none
  layers : Option ℤ := none
  thickness : Option ℚ := none
  turns : Option ℚ := none
  sign : ℚ := 1
  gain : ℚ := 1
deriving DecidableEq, Repr

/-- One pipeline stage record (`StageResult`). -/
structure StageResult where
  key : String
  label : String
  description : String
  enabled : Bool
  deviation : ℚ
  baseline : Option ℚ
  mesh : Mesh
  actions : List StageAction
  warnings : List String
  help_key : String
deriving DecidableEq, Repr

/-- The computed workflow (`WorkflowData`): ordered stages plus the chosen
best stage. -/
structure WorkflowData where
  stages : List StageResult
  best_stage : StageResult
deriving DecidableEq, Repr

/-! ## Settings record (`settings` dict groups read by the engine) -/

/-- The `thresholds` settings group entries the engine reads. -/
structure ThresholdSettings where
  screw_threshold : ℚ
  belt_threshold : Option ℚ := none
deriving DecidableEq, Repr

/-- The `hardware` settings group entries the engine reads. -/
structure HardwareSettings where
  tape_thickness : ℚ
  belt_tooth_mm : Option ℚ := none
deriving DecidableEq, Repr

/-- The `workflow` enable flags; an absent entry defaults to enabled. -/
structure WorkflowFlags where
  enable_belt : Option Bool := none
  enable_screws : Option Bool := none
  enable_tape : Option Bool := none
deriving DecidableEq, Repr

/-- The `environment` settings group entries the temperature stage reads. -/
structure EnvironmentSettings where
  measurement_temp : Option ℚ := none
  target_temp : Option ℚ := none
  thermal_expansion_coeff : Option ℚ := none
deriving DecidableEq, Repr

/-- The optional `thermal_model` settings group. -/
structure ThermalModelSettings where
  measurement_temp : Option ℚ := none
  target_temp : Option ℚ := none
  chamber_factor : Option ℚ := none
  pei_thickness : Option ℚ := none
  steel_thickness : Option ℚ := none
  alpha_pei : Option ℚ := none
  alpha_steel : Option ℚ := none
  beta_uniform : Option ℚ := none
deriving DecidableEq, Repr

/-- The settings record handed to `compute_workflow`. -/
structure Settings where
  thresholds : ThresholdSettings
  hardware : HardwareSettings
  workflow : WorkflowFlags := {}
  environment : EnvironmentSettings := {}
  thermal_model : Option ThermalModelSettings := none
deriving DecidableEq, Repr

/-! ## Stage calculators (`workflow/calculators.py`) -/

/-- Gain applied to front Z-shaft corrections (`FRONT_SHAFT_GAIN`). -/
def FRONT_SHAFT_GAIN : ℚ := 1.6

/-- Gain applied to the rear Z-shaft correction (`BACK_SHAFT_GAIN`). -/
def BACK_SHAFT_GAIN : ℚ := 0.4

/-- Translation of `compute_stage_deviation`: total height span max - min. -/
def compute_stage_deviation (mesh : Mesh) : ℚ := mesh.maxVal - mesh.minVal

/-- Translation of `compute_initial_stage`. -/
def compute_initial_stage (mesh : Mesh) : StageResult :=
  { key := "initial"
    label := "visual_rec.stage_initial"
    description := "visual_rec.stage_initial_details"
    enabled := true
    deviation := compute_stage_deviation mesh
    baseline := none
    mesh := mesh
    actions := []
    warnings := []
    help_key := "visual_rec.help.initial" }

/-- Translation of `_format_corner_name`. -/
def format_corner_name (side : String) : String :=
  if side = "front_left" then "visual_rec.front_left"
  else if side = "front_right" then "visual_rec.front_right"
  else if side = "back_left" then "visual_rec.back_left"
  else if side = "back_right" then "visual_rec.back_right"
  else if side = "back_center" then "visual_rec.back_center"
  else side

/-- Translation of `_calculate_belt_adjustments`: the optional front-corner
action and the optional back action, computed from the bed's stored mesh.
The two components render the `'front_left'`/`'front_right'` key (at most
one of the two can be present) and the `'back'` key of the actions dict. -/
def calculate_belt_adjustments (bedMesh : Mesh) (threshold tooth_mm : ℚ) :
    Option StageAction × Option StageAction :=
  let rows := bedMesh.length
  let cols := (bedMesh.headD []).length
  let left_front := bedMesh.get 0 0
  let right_front := bedMesh.get 0 (cols - 1)
  let back_center := bedMesh.get (rows - 1) (cols / 2)
  let front_avg := (left_front + right_front) / 2
  let lr_diff := right_front - left_front
  let front :=
    if |lr_diff| > threshold then
      let teeth := max 1 (Int.toNat ⌈|lr_diff| / tooth_mm⌉)
      let delta_mm := (teeth : ℚ) * tooth_mm
      let target_corner := if lr_diff > 0 then "front_left" else "front_right"
      some
        { kind := "belt"
          identifier := target_corner
          label := format_corner_name target_corner
          direction := some "up"
          magnitude_mm := delta_mm
          teeth := some teeth
          sign := 1
          gain := FRONT_SHAFT_GAIN }
    else none
  let back_diff := back_center - front_avg
  let back :=
    if |back_diff| > threshold then
      let teeth := max 1 (Int.toNat ⌈|back_diff| / tooth_mm⌉)
      let delta_mm := (teeth : ℚ) * tooth_mm
      let direction := if back_diff < 0 then "up" else "down"
      some
        { kind := "belt"
          identifier := "back"
          label := format_corner_name "back_center"
          direction := some direction
          magnitude_mm := delta_mm
          teeth := some teeth
          sign := if direction = "up" then 1 else -1
          gain := BACK_SHAFT_GAIN }
    else none
  (front, back)

/-- Translation of `_normalise_mesh_load`: remove the mean height shift the
stage introduced, unless it is already below the 1e-9 tolerance. -/
def normalise_mesh_load (base_mesh adjusted_mesh : Mesh) : Mesh :=
  let offset := (Mesh.map2 (fun a b => a - b) adjusted_mesh base_mesh).mean
  if |offset| < 1 / 1000000000 then adjusted_mesh
  else adjusted_mesh.mapQ (fun a => a - offset)

/-- Helper of `_apply_belt_adjustments` (`apply_to_corner`): add the delta
through a max-normalised influence map. -/
def apply_to_corner (m influence : Mesh) (delta_mm : ℚ) : Mesh :=
  let mx := influence.maxVal
  let scaled := if mx ≠ 0 then influence.mapQ (fun a => a / mx) else influence
  m.addScaled scaled delta_mm

/-- Translation of `_apply_belt_adjustments`.  The solver's bilinear corner
weights are always present (built by `ScrewSolver.__init__`), so the smooth
falloff fallback `_build_corner_weights` would construct is dead code in
every workflow computation and `weights` are the bilinear maps here. -/
def apply_belt_adjustments (cfg : BedConfig) (base_mesh : Mesh)
    (front back : Option StageAction) : Mesh :=
  if front = none ∧ back = none then base_mesh
  else
    let m1 :=
      match front with
      | none => base_mesh
      | some act =>
        let corner := if act.identifier = "front_left" then Corner.front_left
          else Corner.front_right
        apply_to_corner base_mesh (corner_weight_mesh cfg corner)
          (act.magnitude_mm * act.sign * act.gain)
    let m2 :=
      match back with
      | none => m1
      | some act =>
        let influence := Mesh.map2 (fun a b => (a + b) / 2)
          (corner_weight_mesh cfg Corner.back_left)
          (corner_weight_mesh cfg Corner.back_right)
        apply_to_corner m1 influence (act.magnitude_mm * act.sign * act.gain)
    normalise_mesh_load base_mesh m2

/-- Translation of `build_belt_stage`; the belt thresholds come from the
settings, the shaft comparisons read the bed's stored mesh, and the
correction is applied to the mesh threaded through the pipeline. -/
def build_belt_stage (cfg : BedConfig) (bedMesh : Mesh) (settings : Settings)
    (mesh_before : Mesh) (enabled_flag : Bool) : StageResult × Mesh :=
  let baseline := compute_stage_deviation mesh_before
  if !enabled_flag then
    ({ key := "after_belts"
       label := "visual_rec.belt_stage_title"
       description := "visual_rec.belt_stage_description"
       enabled := false
       deviation := baseline
       baseline := some baseline
       mesh := mesh_before
       actions := []
       warnings := ["visual_rec.stage_disabled"]
       help_key := "visual_rec.help.belts" }, mesh_before)
  else
    let belt_threshold :=
      settings.thresholds.belt_threshold.getD settings.thresholds.screw_threshold
    let tooth_mm := settings.hardware.belt_tooth_mm.getD 0.4
    let fb := calculate_belt_adjustments bedMesh belt_threshold tooth_mm
    let mesh_after := apply_belt_adjustments cfg mesh_before fb.1 fb.2
    let deviation_after := compute_stage_deviation mesh_after
    let actions := (fb.1.toList) ++ (fb.2.toList)
    let warnings := if actions.isEmpty then ["visual_rec.belt_no_adjustments"] else []
    ({ key := "after_belts"
       label := "visual_rec.belt_stage_title"
       description := "visual_rec.belt_stage_description"
       enabled := true
       deviation := deviation_after
       baseline := some baseline
       mesh := mesh_after
       actions := actions
       warnings := warnings
       help_key := "visual_rec.help.belts" }, mesh_after)

/-- Translation of `_build_screw_actions`. -/
def build_screw_actions (adjustments : List ScrewAdjustment) : List StageAction :=
  adjustments.map fun adj =>
    { kind := "screw"
      identifier :=
        match adj.corner with
        | .front_left => "front_left"
        | .front_right => "front_right"
        | .back_left => "back_left"
        | .back_right => "back_right"
      label :=
        format_corner_name
          (match adj.corner with
           | .front_left => "front_left"
           | .front_right => "front_right"
           | .back_left => "back_left"
           | .back_right => "back_right")
      direction :=
        some (if adj.direction = RotationDirection.counterclockwise
          then "counterclockwise" else "clockwise")
      minutes := some adj.minutes
      degrees := some adj.degrees
      magnitude_mm := |adj.current_height - adj.target_height|
      turns := some adj.turns }

/-- Translation of `build_screw_stage`: adjustments against the bed's ideal
plane, simulated on the threaded mesh. -/
def build_screw_stage (cfg : BedConfig) (scfg : ScrewConfig) (bedMesh : Mesh)
    (base_mesh : Mesh) (enabled_flag : Bool) : StageResult × Mesh :=
  let baseline := compute_stage_deviation base_mesh
  if !enabled_flag then
    ({ key := "after_screws"
       label := "visual_rec.screw_header"
       description := "visual_rec.stage_screw_details"
       enabled := false
       deviation := baseline
       baseline := some baseline
       mesh := base_mesh
       actions := []
       warnings := ["visual_rec.stage_disabled"]
       help_key := "visual_rec.help.screws" }, base_mesh)
  else
    let adjustments := ScrewSolver.calculate_adjustments cfg scfg bedMesh
    let mesh_after :=
      if adjustments.isEmpty then base_mesh
      else ScrewSolver.simulate_sequence cfg scfg adjustments base_mesh
    let deviation_after := compute_stage_deviation mesh_after
    let actions := build_screw_actions adjustments
    let warnings := if actions.isEmpty then ["visual_rec.screw_no_adjustments"] else []
    ({ key := "after_screws"
       label := "visual_rec.screw_header"
       description := "visual_rec.stage_screw_details"
       enabled := true
       deviation := deviation_after
       baseline := some baseline
       mesh := mesh_after
       actions := actions
       warnings := warnings
       help_key := "visual_rec.help.screws" }, mesh_after)

/-- Translation of `_build_tape_actions`; the identifier renders the
`f"{x+1}{chr(65+y)}"` cell naming. -/
def build_tape_actions (spots : List TapeSpot) (tape_thickness : ℚ) :
    List StageAction :=
  spots.map fun spot =>
    let position := toString (spot.x + 1) ++ String.singleton (Char.ofNat (65 + spot.y))
    { kind := "tape"
      identifier := position
      label := position
      magnitude_mm := spot.height_diff
      layers := some spot.layers
      thickness := some ((spot.layers : ℚ) * tape_thickness) }

/-- Translation of `build_tape_stage`. -/
def build_tape_stage (cfg : BedConfig) (tcfg : TapeConfig) (base_mesh : Mesh)
    (settings : Settings) (enabled_flag : Bool) : StageResult × Mesh :=
  let baseline := compute_stage_deviation base_mesh
  if !enabled_flag then
    ({ key := "after_tape"
       label := "visual_rec.tape_header"
       description := "visual_rec.stage_tape_details"
       enabled := false
       deviation := baseline
       baseline := some baseline
       mesh := base_mesh
       actions := []
       warnings := ["visual_rec.stage_disabled"]
       help_key := "visual_rec.help.tape" }, base_mesh)
  else
    let spots := TapeCalculator.optimize_tape_layout tcfg
      (TapeCalculator.find_low_spots cfg tcfg base_mesh)
    let mesh_after :=
      if spots.isEmpty then base_mesh
      else TapeCalculator.apply_spots cfg tcfg base_mesh spots
    let deviation_after := compute_stage_deviation mesh_after
    let actions := build_tape_actions spots settings.hardware.tape_thickness
    let warnings := if actions.isEmpty then ["visual_rec.tape_no_adjustments"] else []
    ({ key := "after_tape"
       label := "visual_rec.tape_header"
       description := "visual_rec.stage_tape_details"
       enabled := true
       deviation := deviation_after
       baseline := some baseline
       mesh := mesh_after
       actions := actions
       warnings := warnings
       help_key := "visual_rec.help.tape" }, mesh_after)

/-! ## Temperature stage (`_apply_temperature_effect`, `build_temperature_stage`) -/

/-- Mean of an `rows` by `cols` grid given by a function (mean of the numpy
array the function describes). -/
def gridMean (rows cols : ℕ) (w : ℕ → ℕ → ℚ) : ℚ :=
  (Mesh.ofFn rows cols w).mean

/-- Recentre a warp field to zero mean and add it to the mesh (the final
`warp -= np.mean(warp); return mesh + warp` step). -/
def addRecentredWarp (mesh : Mesh) (rows cols : ℕ) (w : ℕ → ℕ → ℚ) : Mesh :=
  let wmean := gridMean rows cols w
  Mesh.ofFn rows cols (fun i j => mesh.get i j + (w i j - wmean))

/-- Translation of `_apply_temperature_effect`, returning the resulting
mesh (the diagnostic info dict is not modelled: nothing downstream reads
it).  The bimetallic-plate curvature, the uniform-expansion curvature and
the legacy single-coefficient fallback follow the source line by line. -/
def apply_temperature_effect (cfg : BedConfig) (mesh : Mesh)
    (env : EnvironmentSettings) (tm : Option ThermalModelSettings) : Mesh :=
  let measurement_temp := (tm.bind (·.measurement_temp)).getD (env.measurement_temp.getD 25.0)
  let target_temp := (tm.bind (·.target_temp)).getD (env.target_temp.getD measurement_temp)
  if |target_temp - measurement_temp| < 1 / 1000 ∧ tm = none then mesh
  else
    let chamber_factor := (tm.bind (·.chamber_factor)).getD 0.0
    let pei_thickness := (tm.bind (·.pei_thickness)).getD 0.55
    let steel_thickness := (tm.bind (·.steel_thickness)).getD 1.50
    let alpha_pei := (tm.bind (·.alpha_pei)).getD (env.thermal_expansion_coeff.getD 0.0)
    let alpha_steel := (tm.bind (·.alpha_steel)).getD (env.thermal_expansion_coeff.getD 0.0)
    let beta_uniform := (tm.bind (·.beta_uniform)).getD 0.2
    let total_top_delta := target_temp - measurement_temp
    let chamber_temp := measurement_temp + chamber_factor * total_top_delta
    let delta_through := target_temp - chamber_temp
    let delta_uniform := chamber_temp - measurement_temp
    if |delta_through| < 1 / 1000000 ∧ |delta_uniform| < 1 / 1000000 ∧ tm = none then mesh
    else
      let steps := Bed.get_mm_per_point cfg
      let rows := mesh.length
      let cols := (mesh.headD []).length
      let center_x := cfg.size_x / 2
      let center_y := cfg.size_y / 2
      let radius_sq : ℕ → ℕ → ℚ := fun i j =>
        ((i : ℚ) * steps.1 - center_x) ^ 2 + ((j : ℚ) * steps.2 - center_y) ^ 2
      let total_thickness := max (pei_thickness + steel_thickness) (1 / 1000000)
      let kappa_bimetal :=
        if |delta_through| > 1 / 1000000 ∧ pei_thickness > 0 ∧ steel_thickness > 0
            ∧ |alpha_pei - alpha_steel| > 1 / 1000000000000 then
          let rho := pei_thickness / steel_thickness
          let n := (33 : ℚ) / 2000
          let stiffness := 1 + 4 * rho + 6 * rho ^ 2 + 4 * rho ^ 3 + rho ^ 4
          let coupling := 1 + (n * rho ^ 2 * (1 + rho) ^ 2) / max stiffness (1 / 1000000)
          ((6 * (alpha_pei - alpha_steel) * delta_through)
              / (steel_thickness * (1 + rho) ^ 2 * max stiffness (1 / 1000000))) / coupling
        else 0
      let kappa_uniform :=
        if |delta_uniform| > 1 / 1000000 ∧ |alpha_steel| > 1 / 1000000000000 then
          beta_uniform * alpha_steel * delta_uniform / total_thickness
        else 0
      let warp : ℕ → ℕ → ℚ := fun i j =>
        (1 / 2) * kappa_bimetal * radius_sq i j + (1 / 2) * kappa_uniform * radius_sq i j
      let any_warp := (List.range rows).any fun i =>
        (List.range cols).any fun j => decide (warp i j ≠ 0)
      if any_warp then addRecentredWarp mesh rows cols warp
      else
        let expansion_coeff := env.thermal_expansion_coeff.getD 0.0
        let delta_temp := target_temp - measurement_temp
        if |delta_temp| < 1 / 1000 ∨ |expansion_coeff| < 1 / 1000000000 then mesh
        else
          let max_radius_sq := center_x ^ 2 + center_y ^ 2
          if max_radius_sq ≤ 0 then mesh
          else
            addRecentredWarp mesh rows cols
              (fun i j => expansion_coeff * delta_temp * (radius_sq i j / max_radius_sq))

/-- Translation of `build_temperature_stage`: the stage is enabled only if
the warp meaningfully changed the deviation. -/
def build_temperature_stage (cfg : BedConfig) (base_mesh : Mesh)
    (env : EnvironmentSettings) (enabled_flag : Bool)
    (thermal_model : Option ThermalModelSettings) : StageResult × Mesh :=
  let baseline := compute_stage_deviation base_mesh
  let mesh_after := apply_temperature_effect cfg base_mesh env thermal_model
  let deviation_after := compute_stage_deviation mesh_after
  let enabled := enabled_flag && decide (|deviation_after - baseline| > 1 / 1000000)
  let warnings := if !enabled then ["visual_rec.temperature_no_adjustments"] else []
  ({ key := "after_temperature"
     label := "visual_rec.stage_temperature"
     description := "visual_rec.stage_temperature_details"
     enabled := enabled
     deviation := deviation_after
     baseline := some baseline
     mesh := mesh_after
     actions := []
     warnings := warnings
     help_key := "visual_rec.help.temperature" }, mesh_after)

/-! ## Workflow engine (`workflow/engine.py`) -/

/-- First stage with the minimal deviation (Python
`min(stages, key=lambda stage: stage.deviation)`), `none` on an empty
list. -/
def pickBestStage (l : List StageResult) : Option StageResult :=
  l.foldl
    (fun acc s =>
      match acc with
      | none => some s
      | some b => if s.deviation < b.deviation then some s else some b)
    none

/-- Translation of `compute_workflow`: thread the simulated mesh through
the five stages and pick the enabled stage of minimal deviation, falling
back to the first stage when no stage is enabled. -/
def compute_workflow (cfg : BedConfig) (scfg : ScrewConfig) (tcfg : TapeConfig)
    (bedMesh : Mesh) (settings : Settings) : WorkflowData :=
  let initial_stage := compute_initial_stage bedMesh
  let belt := build_belt_stage cfg bedMesh settings bedMesh
    (settings.workflow.enable_belt.getD true)
  let screw := build_screw_stage cfg scfg bedMesh belt.2
    (settings.workflow.enable_screws.getD true)
  let tape := build_tape_stage cfg tcfg screw.2 settings
    (settings.workflow.enable_tape.getD true)
  let temperature := build_temperature_stage cfg tape.2 settings.environment true
    settings.thermal_model
  let stages := [initial_stage, belt.1, screw.1, tape.1, temperature.1]
  let enabled_stages := stages.filter (·.enabled)
  let best_stage := (pickBestStage enabled_stages).getD (stages.headD initial_stage)
  { stages := stages, best_stage := best_stage }

/-! ## Deviation analyzer forecast (`algorithms/deviation_analyzer.py`)

`estimate_bed_after_screw_adjustment` builds its own distance-based
influence matrices with `np.sqrt`, so this part of the embedding lives on
the real numbers; meshes are functions on indices here. -/

namespace RealModel

/-- A mesh as a function on grid indices, real-valued. -/
def MeshF := ℕ → ℕ → ℝ

/-- Interpret a rational list mesh as a function mesh. -/
def castMesh (m : Mesh) : MeshF := fun i j => ((m.get i j : ℚ) : ℝ)

/-- Sum of `f` over `0, ..., n-1`. -/
def rangeSum (n : ℕ) (f : ℕ → ℝ) : ℝ := ((List.range n).map f).sum

/-- Sum of a mesh block `[x0:x1, y0:y1]`. -/
def blockSum (m : MeshF) (x0 x1 y0 y1 : ℕ) : ℝ :=
  rangeSum (x1 - x0) fun di => rangeSum (y1 - y0) fun dj => m (x0 + di) (y0 + dj)

/-- Mean of a mesh block (`np.mean` over a slice). -/
noncomputable def blockMean (m : MeshF) (x0 x1 y0 y1 : ℕ) : ℝ :=
  blockSum m x0 x1 y0 y1 / (((x1 - x0) * (y1 - y0) : ℕ) : ℝ)

/-- Mean over the whole configured grid. -/
noncomputable def meshMean (cfg : BedConfig) (m : MeshF) : ℝ :=
  blockMean m 0 cfg.mesh_points_x 0 cfg.mesh_points_y

/-- Corner height with clamped block averaging, as `Bed.get_corner_height`. -/
noncomputable def get_corner_height (cfg : BedConfig) (m : MeshF) (corner : Corner)
    (area_size : ℕ := 1) : ℝ :=
  let xy := corner.coords cfg
  blockMean m (xy.1 - area_size) (min cfg.mesh_points_x (xy.1 + area_size + 1))
    (xy.2 - area_size) (min cfg.mesh_points_y (xy.2 + area_size + 1))

/-- Real-valued `Screw.calculate_adjustment` (the analyzer's own screws). -/
noncomputable def calculate_adjustment (scfg : ScrewConfig) (current_height target_height : ℝ) :
    ℝ × RotationDirection :=
  let diff := current_height - target_height
  if |diff| < (scfg.min_adjust : ℝ) then
    (0, RotationDirection.clockwise)
  else
    let direction := if diff > 0 then RotationDirection.clockwise
      else RotationDirection.counterclockwise
    (min (|diff| / (scfg.mmPerMinute : ℝ)) ((scfg.max_adjust : ℝ) / (scfg.mmPerMinute : ℝ)),
      direction)

/-- Real-valued `Screw.height_change_from_minutes`. -/
noncomputable def height_change_from_minutes (scfg : ScrewConfig) (minutes : ℝ)
    (direction : RotationDirection) : ℝ :=
  if direction = RotationDirection.clockwise then -(minutes * (scfg.mmPerMinute : ℝ))
  else minutes * (scfg.mmPerMinute : ℝ)

/-- The analyzer's own influence factor at grid point `(i, j)` for a corner
at `(x, y)`: `max(0, 1 - distance / max_distance)` with Euclidean distances
(`estimate_bed_after_screw_adjustment`, inner loops). -/
noncomputable def influence (cfg : BedConfig) (x y i j : ℕ) : ℝ :=
  let distance := Real.sqrt (((i : ℝ) - (x : ℝ)) ^ 2 + ((j : ℝ) - (y : ℝ)) ^ 2)
  let max_distance := Real.sqrt (((cfg.mesh_points_x : ℝ) - 1) ^ 2
    + ((cfg.mesh_points_y : ℝ) - 1) ^ 2)
  max 0 (1 - distance / max_distance)

/-- Height change the analyzer computes for one corner: screw adjustment
toward the ideal plane (the grid mean), converted back to millimetres. -/
noncomputable def corner_height_change (cfg : BedConfig) (scfg : ScrewConfig)
    (m : MeshF) (c : Corner) : ℝ :=
  let current_height := get_corner_height cfg m c
  let target_height := meshMean cfg m
  let md := calculate_adjustment scfg current_height target_height
  height_change_from_minutes scfg md.1 md.2

/-- Translation of `DeviationAnalyzer.estimate_bed_after_screw_adjustment`:
every corner's height change is applied through the analyzer's own
distance-falloff influence matrix (not the screw solver's bilinear
weights). -/
noncomputable def estimate_bed_after_screw_adjustment (cfg : BedConfig)
    (scfg : ScrewConfig) (m : MeshF) : MeshF :=
  fun i j =>
    m i j +
      ((cornersList.map fun c =>
        let xy := c.coords cfg
        corner_height_change cfg scfg m c * influence cfg xy.1 xy.2 i j).sum)

/-- The same per-corner height changes applied through the screw solver's
bilinear corner-weight maps instead: the simulation the specification says
the analyzer uses. -/
noncomputable def solver_weight_simulation (cfg : BedConfig)
    (scfg : ScrewConfig) (m : MeshF) : MeshF :=
  fun i j =>
    m i j +
      ((cornersList.map fun c =>
        corner_height_change cfg scfg m c
          * ((corner_weight cfg.mesh_points_x cfg.mesh_points_y c i j : ℚ) : ℝ)).sum)

/-- Deviation measure used by `find_optimal_strategy`:
`np.max(np.abs(mesh - np.mean(mesh)))`. -/
noncomputable def maxAbsDeviation (cfg : BedConfig) (m : MeshF) : ℝ :=
  let mu := meshMean cfg m
  ((List.range cfg.mesh_points_x).flatMap fun i =>
    (List.range cfg.mesh_points_y).map fun j => |m i j - mu|).foldl max 0

/-- The dict returned by `find_optimal_strategy`. -/
structure StrategyResult where
  original_deviation : ℝ
  deviation_after_screws : ℝ
  needs_screws : Prop
  needs_tape : Prop
  expected_final_deviation : ℝ
  simulated_bed_after_screws : MeshF

/-- Translation of `DeviationAnalyzer.find_optimal_strategy`. -/
noncomputable def find_optimal_strategy (cfg : BedConfig) (scfg : ScrewConfig)
    (screw_threshold tape_threshold : ℝ) (m : MeshF) : StrategyResult :=
  let original_deviation := maxAbsDeviation cfg m
  let bed_after_screws := estimate_bed_after_screw_adjustment cfg scfg m
  let deviation_after_screws := maxAbsDeviation cfg bed_after_screws
  { original_deviation := original_deviation
    deviation_after_screws := deviation_after_screws
    needs_screws := original_deviation > screw_threshold
    needs_tape := deviation_after_screws > tape_threshold
    expected_final_deviation :=
      if deviation_after_screws > tape_threshold then tape_threshold
      else deviation_after_screws
    simulated_bed_after_screws := bed_after_screws }

end RealModel

/-! ## Concrete instances used in witnesses and counterexamples -/

/-- A 3 by 3 bed. -/
def smallCfg : BedConfig := { mesh_points_x := 3, mesh_points_y := 3 }

/-- A 3 by 3 mesh whose front-right corner sits 0.2 mm high: the
left-to-right shaft difference just exceeds a 0.19 belt threshold, and the
resulting one-tooth correction (0.4 mm times the 1.6 front gain)
overshoots. -/
def overshootMesh : Mesh := [[0, 0, 1/5], [0, 0, 0], [0, 0, 0]]

/-- Settings enabling only the belt stage, with a 0.19 screw threshold. -/
def overshootSettings : Settings :=
  { thresholds := { screw_threshold := 0.19 }
    hardware := { tape_thickness := 0.06 }
    workflow :=
      { enable_belt := some true
        enable_screws := some false
        enable_tape := some false } }

/-- A concrete front-left screw adjustment. -/
def adjFrontLeft : ScrewAdjustment :=
  { corner := Corner.front_left
    minutes := 30
    degrees := 180
    direction := RotationDirection.clockwise
    current_height := 1/2
    target_height := 0
    priority := 1
    turns := 1/2 }

/-- A concrete back-right screw adjustment. -/
def adjBackRight : ScrewAdjustment :=
  { corner := Corner.back_right
    minutes := 10
    degrees := 60
    direction := RotationDirection.counterclockwise
    current_height := 0
    target_height := 1/10
    priority := 4
    turns := 1/6 }

/-- A concrete interior tape spot with two layers. -/
def centreSpot : TapeSpot :=
  { x := 1, y := 1, layers := 2, height_diff := 13/100, priority := 3, area_size := 1 }

/-- A 4 by 5 bed for the analyzer forecast comparison. -/
def forecastCfg : BedConfig := { mesh_points_x := 4, mesh_points_y := 5 }

/-- A 4 by 5 function mesh whose front-left 2 by 2 block sits 0.4 mm high:
only the front-left screw receives a nonzero adjustment. -/
noncomputable def forecastMesh : RealModel.MeshF :=
  fun i j => if i ≤ 1 ∧ j ≤ 1 then (2/5 : ℝ) else 0

set_option maxRecDepth 100000

/-! ## Shape and mean lemmas for meshes -/

theorem Mesh.cells_cons (row : List ℚ) (tl : Mesh) :
    Mesh.cells (row :: tl) = row ++ Mesh.cells tl := by
  simp [Mesh.cells]

theorem Mesh.cellSum_cons (row : List ℚ) (tl : Mesh) :
    Mesh.cellSum (row :: tl) = row.sum + Mesh.cellSum tl := by
  simp [Mesh.cellSum, Mesh.cells_cons]

theorem Mesh.cellCount_cons (row : List ℚ) (tl : Mesh) :
    Mesh.cellCount (row :: tl) = row.length + Mesh.cellCount tl := by
  simp [Mesh.cellCount, Mesh.cells_cons]

theorem zipWith_sub_sum (xs ys : List ℚ) (h : xs.length = ys.length) :
    (List.zipWith (fun a b => a - b) xs ys).sum = xs.sum - ys.sum := by
  induction xs generalizing ys with
  | nil =>
    cases ys with
    | nil => simp
    | cons b tl => simp at h
  | cons a tl ih =>
    cases ys with
    | nil => simp at h
    | cons b tl2 =>
      have h' : tl.length = tl2.length := by simpa using h
      simp only [List.zipWith_cons_cons, List.sum_cons, ih tl2 h']
      ring

theorem sameShape_of_wf (a b : Mesh) (r c : ℕ) (ha : a.Wf r c) (hb : b.Wf r c) :
    List.Forall₂ (fun ra rb => ra.length = rb.length) a b := by
  obtain ⟨hal, har⟩ := ha
  obtain ⟨hbl, hbr⟩ := hb
  have hlen : a.length = b.length := by rw [hal, hbl]
  clear hal hbl
  induction a generalizing b with
  | nil =>
    cases b with
    | nil => constructor
    | cons rb tb => simp at hlen
  | cons ra ta ih =>
    cases b with
    | nil => simp at hlen
    | cons rb tb =>
      constructor
      · rw [har ra (by simp), hbr rb (by simp)]
      · exact ih tb (fun row hr => har row (by simp [hr]))
          (fun row hr => hbr row (by simp [hr])) (by simpa using hlen)

theorem cellSum_map2_sub (a b : Mesh)
    (h : List.Forall₂ (fun ra rb => ra.length = rb.length) a b) :
    (Mesh.map2 (fun x y => x - y) a b).cellSum = a.cellSum - b.cellSum := by
  induction h with
  | nil => simp [Mesh.map2, Mesh.cellSum, Mesh.cells]
  | @cons ra rb ta tb hr _ ih =>
    simp only [Mesh.map2, List.zipWith_cons_cons, Mesh.cellSum_cons]
    have := zipWith_sub_sum ra rb hr
    simp only [Mesh.map2] at ih
    rw [this, ih]
    ring

theorem cellCount_of_rows (a : Mesh) (c : ℕ) (h : ∀ row ∈ a, row.length = c) :
    a.cellCount = a.length * c := by
  induction a with
  | nil => simp [Mesh.cellCount, Mesh.cells]
  | cons ra ta ih =>
    rw [Mesh.cellCount_cons, h ra (by simp), ih (fun row hr => h row (by simp [hr]))]
    simp [List.length_cons]
    ring

theorem cellCount_eq (a : Mesh) (r c : ℕ) (ha : a.Wf r c) : a.cellCount = r * c := by
  rw [cellCount_of_rows a c ha.2, ha.1]

theorem map2_wf (f : ℚ → ℚ → ℚ) (a b : Mesh) (r c : ℕ) (ha : a.Wf r c) (hb : b.Wf r c) :
    (Mesh.map2 f a b).Wf r c := by
  constructor
  · simp only [Mesh.map2, List.length_zipWith, ha.1, hb.1, min_self]
  · intro row hr
    rw [List.mem_iff_getElem] at hr
    obtain ⟨k, hk, rfl⟩ := hr
    have hka : k < a.length := by
      simp only [Mesh.map2, List.length_zipWith] at hk
      omega
    have hkb : k < b.length := by
      simp only [Mesh.map2, List.length_zipWith] at hk
      omega
    simp only [Mesh.map2, List.getElem_zipWith, List.length_zipWith]
    rw [ha.2 _ (List.getElem_mem hka), hb.2 _ (List.getElem_mem hkb), min_self]

theorem mapQ_wf (f : ℚ → ℚ) (a : Mesh) (r c : ℕ) (ha : a.Wf r c) : (a.mapQ f).Wf r c := by
  constructor
  · simp [Mesh.mapQ, ha.1]
  · intro row hr
    simp only [Mesh.mapQ, List.mem_map] at hr
    obtain ⟨row0, hr0, rfl⟩ := hr
    simp [ha.2 row0 hr0]

theorem ofFn_wf (r c : ℕ) (f : ℕ → ℕ → ℚ) : (Mesh.ofFn r c f).Wf r c := by
  constructor
  · simp [Mesh.ofFn]
  · intro row hr
    simp only [Mesh.ofFn, List.mem_map] at hr
    obtain ⟨i, _, rfl⟩ := hr
    simp

theorem mean_map2_sub (a b : Mesh) (r c : ℕ) (ha : a.Wf r c) (hb : b.Wf r c) :
    (Mesh.map2 (fun x y => x - y) a b).mean = a.mean - b.mean := by
  unfold Mesh.mean
  rw [cellSum_map2_sub a b (sameShape_of_wf a b r c ha hb),
    cellCount_eq _ r c (map2_wf _ a b r c ha hb), cellCount_eq a r c ha,
    cellCount_eq b r c hb, sub_div]

theorem row_map_sub_sum (row : List ℚ) (k : ℚ) :
    (row.map (fun a => a - k)).sum = row.sum - row.length * k := by
  induction row with
  | nil => simp
  | cons a tl ih =>
    simp only [List.map_cons, List.sum_cons, ih, List.length_cons]
    push_cast
    ring

theorem cellSum_mapQ_sub (m : Mesh) (k : ℚ) :
    (m.mapQ (fun a => a - k)).cellSum = m.cellSum - m.cellCount * k := by
  induction m with
  | nil => simp [Mesh.mapQ, Mesh.cellSum, Mesh.cellCount, Mesh.cells]
  | cons row tl ih =>
    simp only [Mesh.mapQ, List.map_cons] at ih ⊢
    rw [Mesh.cellSum_cons, Mesh.cellSum_cons, Mesh.cellCount_cons, row_map_sub_sum, ih]
    push_cast
    ring

theorem cellCount_mapQ (m : Mesh) (f : ℚ → ℚ) : (m.mapQ f).cellCount = m.cellCount := by
  induction m with
  | nil => rfl
  | cons row tl ih =>
    simp only [Mesh.mapQ, List.map_cons] at ih ⊢
    rw [Mesh.cellCount_cons, Mesh.cellCount_cons, List.length_map, ih]

theorem mean_mapQ_sub (m : Mesh) (k : ℚ) (h : m.cellCount ≠ 0) :
    (m.mapQ (fun a => a - k)).mean = m.mean - k := by
  unfold Mesh.mean
  rw [cellSum_mapQ_sub, cellCount_mapQ]
  have hq : (m.cellCount : ℚ) ≠ 0 := by exact_mod_cast h
  field_simp

/-- The belt-stage renormalisation leaves the mean within the 1e-9
tolerance of the base mesh's mean (exactly equal when the offset branch
fires). -/
theorem normalise_mesh_load_mean (base adj : Mesh) (r c : ℕ) (hb : base.Wf r c)
    (ha : adj.Wf r c) (hpos : 0 < r * c) :
    |(normalise_mesh_load base adj).mean - base.mean| < 1 / 1000000000 := by
  unfold normalise_mesh_load
  have hoff : (Mesh.map2 (fun a b => a - b) adj base).mean = adj.mean - base.mean :=
    mean_map2_sub adj base r c ha hb
  by_cases h : |(Mesh.map2 (fun a b => a - b) adj base).mean| < 1 / 1000000000
  · rw [if_pos h]
    rw [hoff] at h
    exact h
  · rw [if_neg h]
    have hc : adj.cellCount ≠ 0 := by
      rw [cellCount_eq adj r c ha]
      omega
    rw [mean_mapQ_sub adj _ hc, hoff]
    have : adj.mean - (adj.mean - base.mean) - base.mean = 0 := by ring
    rw [this]
    norm_num

theorem apply_to_corner_wf (m infl : Mesh) (d : ℚ) (r c : ℕ) (hm : m.Wf r c)
    (hi : infl.Wf r c) : (apply_to_corner m infl d).Wf r c := by
  simp only [apply_to_corner, Mesh.addScaled]
  split
  · exact map2_wf _ m _ r c hm (mapQ_wf _ infl r c hi)
  · exact map2_wf _ m infl r c hm hi

/-- The belt adjustment application never moves the mean of the mesh it
received by 1e-9 or more. -/
theorem apply_belt_adjustments_mean (cfg : BedConfig) (base : Mesh)
    (front back : Option StageAction)
    (hwf : base.Wf cfg.mesh_points_x cfg.mesh_points_y)
    (hpos : 0 < cfg.mesh_points_x * cfg.mesh_points_y) :
    |(apply_belt_adjustments cfg base front back).mean - base.mean| < 1 / 1000000000 := by
  unfold apply_belt_adjustments
  by_cases h : front = none ∧ back = none
  · rw [if_pos h]
    simp
  · rw [if_neg h]
    have hw1 : ∀ c, (corner_weight_mesh cfg c).Wf cfg.mesh_points_x cfg.mesh_points_y :=
      fun c => ofFn_wf _ _ _
    refine normalise_mesh_load_mean base _ cfg.mesh_points_x cfg.mesh_points_y hwf ?_ hpos
    cases back with
    | none =>
      cases front with
      | none => exact hwf
      | some a => exact apply_to_corner_wf _ _ _ _ _ hwf (hw1 _)
    | some a =>
      refine apply_to_corner_wf _ _ _ _ _ ?_ (map2_wf _ _ _ _ _ (hw1 _) (hw1 _))
      cases front with
      | none => exact hwf
      | some a2 => exact apply_to_corner_wf _ _ _ _ _ hwf (hw1 _)

/-! ## C3: the belt stage only redistributes height -/

/-- C3.  For every input mesh and settings, the enabled belt stage's output
mesh has the same mean as the mesh the stage received, within the 1e-9
tolerance (the stage only redistributes height). -/
theorem belt_stage_preserves_mean (cfg : BedConfig) (bedMesh : Mesh) (settings : Settings)
    (mesh_before : Mesh)
    (hwf : mesh_before.Wf cfg.mesh_points_x cfg.mesh_points_y)
    (hpos : 0 < cfg.mesh_points_x * cfg.mesh_points_y) :
    |((build_belt_stage cfg bedMesh settings mesh_before true).1.mesh).mean
        - mesh_before.mean| < 1 / 1000000000 := by
  have h : (build_belt_stage cfg bedMesh settings mesh_before true).1.mesh
      = apply_belt_adjustments cfg mesh_before
          (calculate_belt_adjustments bedMesh
            (settings.thresholds.belt_threshold.getD settings.thresholds.screw_threshold)
            (settings.hardware.belt_tooth_mm.getD 0.4)).1
          (calculate_belt_adjustments bedMesh
            (settings.thresholds.belt_threshold.getD settings.thresholds.screw_threshold)
            (settings.hardware.belt_tooth_mm.getD 0.4)).2 := rfl
  rw [h]
  exact apply_belt_adjustments_mean cfg mesh_before _ _ hwf hpos

/-- C3 witness: the belt stage on the overshooting 3 by 3 example keeps the
mean within tolerance. -/
theorem belt_stage_preserves_mean_witness :
    overshootMesh.Wf smallCfg.mesh_points_x smallCfg.mesh_points_y
    ∧ 0 < smallCfg.mesh_points_x * smallCfg.mesh_points_y
    ∧ |((build_belt_stage smallCfg overshootMesh overshootSettings overshootMesh true).1.mesh).mean
        - overshootMesh.mean| < 1 / 1000000000 :=
  ⟨by decide, by decide,
    belt_stage_preserves_mean smallCfg overshootMesh overshootSettings overshootMesh
      (by decide) (by decide)⟩

/-! ## C2: the screw adjustment formula -/

/-- C2.  With a positive pitch, `calculate_adjustment` returns amount 0 when
the height difference is inside the dead zone, and otherwise rotates
clockwise (lowering) for a positive difference, counter-clockwise
(raising) for a negative one, by the required minutes clamped to the
per-action maximum. -/
theorem calculate_adjustment_spec (cfg : ScrewConfig) (current_height target_height : ℚ)
    (hp : 0 < cfg.pitch) :
    (|current_height - target_height| < cfg.min_adjust →
      (Screw.calculate_adjustment cfg current_height target_height).1 = 0)
    ∧ (¬ |current_height - target_height| < cfg.min_adjust →
        (current_height - target_height > 0 →
          (Screw.calculate_adjustment cfg current_height target_height).2
            = RotationDirection.clockwise)
        ∧ (current_height - target_height < 0 →
          (Screw.calculate_adjustment cfg current_height target_height).2
            = RotationDirection.counterclockwise)
        ∧ (Screw.calculate_adjustment cfg current_height target_height).1
            = min (|current_height - target_height| / (cfg.pitch / 60))
                (cfg.max_adjust / (cfg.pitch / 60)))
    ∧ (∀ minutes : ℚ, 0 ≤ minutes →
        Screw.height_change_from_minutes cfg minutes RotationDirection.clockwise ≤ 0
        ∧ 0 ≤ Screw.height_change_from_minutes cfg minutes
            RotationDirection.counterclockwise) := by
  refine ⟨fun h => ?_, fun h => ⟨fun hgt => ?_, fun hlt => ?_, ?_⟩, fun minutes hm => ?_⟩
  · simp [Screw.calculate_adjustment, h]
  · simp [Screw.calculate_adjustment, if_neg h, hgt]
  · have : ¬ current_height - target_height > 0 := by linarith
    simp [Screw.calculate_adjustment, if_neg h, this]
  · simp [Screw.calculate_adjustment, if_neg h, ScrewConfig.mmPerMinute]
  · have hpm : 0 ≤ minutes * (cfg.pitch / 60) := by positivity
    constructor
    · have h1 : Screw.height_change_from_minutes cfg minutes RotationDirection.clockwise
          = -(minutes * (cfg.pitch / 60)) := by
        simp [Screw.height_change_from_minutes, ScrewConfig.mmPerMinute]
      rw [h1]
      linarith
    · have h1 : Screw.height_change_from_minutes cfg minutes RotationDirection.counterclockwise
          = minutes * (cfg.pitch / 60) := by
        simp [Screw.height_change_from_minutes, ScrewConfig.mmPerMinute]
      rw [h1]
      linarith

/-- C2 witness: the default screw on a 0.5 mm high corner. -/
theorem calculate_adjustment_spec_witness :
    0 < ({} : ScrewConfig).pitch
    ∧ ((|(1 : ℚ)/2 - 0| < ({} : ScrewConfig).min_adjust →
        (Screw.calculate_adjustment {} (1/2) 0).1 = 0)
      ∧ (¬ |(1 : ℚ)/2 - 0| < ({} : ScrewConfig).min_adjust →
          ((1 : ℚ)/2 - 0 > 0 →
            (Screw.calculate_adjustment {} (1/2) 0).2 = RotationDirection.clockwise)
          ∧ ((1 : ℚ)/2 - 0 < 0 →
            (Screw.calculate_adjustment {} (1/2) 0).2 = RotationDirection.counterclockwise)
          ∧ (Screw.calculate_adjustment {} (1/2) 0).1
              = min (|(1 : ℚ)/2 - 0| / (({} : ScrewConfig).pitch / 60))
                  (({} : ScrewConfig).max_adjust / (({} : ScrewConfig).pitch / 60)))
      ∧ (∀ minutes : ℚ, 0 ≤ minutes →
          Screw.height_change_from_minutes {} minutes RotationDirection.clockwise ≤ 0
          ∧ 0 ≤ Screw.height_change_from_minutes {} minutes
              RotationDirection.counterclockwise)) :=
  ⟨by decide, calculate_adjustment_spec {} (1/2) 0 (by decide)⟩

/-! ## C4: the corner weight maps are a partition of unity -/

/-- C4.  On a grid with at least two rows and columns the four corner
weights sum to exactly 1 at every grid point; on a degenerate grid every
corner's weight is uniformly 1. -/
theorem corner_weights_normalised (rows cols i j : ℕ) :
    (2 ≤ rows → 2 ≤ cols →
      corner_weight rows cols Corner.front_left i j
        + corner_weight rows cols Corner.front_right i j
        + corner_weight rows cols Corner.back_left i j
        + corner_weight rows cols Corner.back_right i j = 1)
    ∧ ((rows < 2 ∨ cols < 2) → ∀ c : Corner, corner_weight rows cols c i j = 1) := by
  have htot : totalRawWeight rows cols i j = 1 := by
    simp only [totalRawWeight, rawCornerWeight]
    ring
  constructor
  · intro hr hc
    have hcond : ¬ (rows < 2 ∨ cols < 2) := by omega
    simp only [corner_weight, if_neg hcond, htot]
    norm_num
    have h2 := htot
    unfold totalRawWeight at h2
    linarith
  · intro h c
    simp [corner_weight, if_pos h]

/-- C4 witness: an interior point of a 3 by 3 grid, and a degenerate
single-row grid. -/
theorem corner_weights_normalised_witness :
    (corner_weight 3 3 Corner.front_left 1 2 + corner_weight 3 3 Corner.front_right 1 2
      + corner_weight 3 3 Corner.back_left 1 2 + corner_weight 3 3 Corner.back_right 1 2 = 1)
    ∧ corner_weight 1 3 Corner.back_left 0 1 = 1 :=
  ⟨(corner_weights_normalised 3 3 1 2).1 (by decide) (by decide),
   (corner_weights_normalised 1 3 0 1).2 (by decide) Corner.back_left⟩

/-! ## C9: fail-fast bed preconditions -/

/-- C9.  Corner height lookup and ideal-plane generation fail with the
data-not-set error before a mesh is assigned, and assigning a mesh of the
wrong shape fails with the shape-mismatch error; in each case an error is
returned instead of any partial result. -/
theorem bed_fail_fast_errors (cfg : BedConfig) (corner : Corner) (area_size : ℕ) (m : Mesh) :
    Bed.get_corner_height_checked cfg none corner area_size
        = Except.error BedError.dataNotSet
    ∧ Bed.generate_ideal_plane_checked none = Except.error BedError.dataNotSet
    ∧ (¬ m.Wf cfg.mesh_points_x cfg.mesh_points_y →
        Bed.set_mesh_data cfg m = Except.error BedError.shapeMismatch)
    ∧ (m.Wf cfg.mesh_points_x cfg.mesh_points_y → Bed.set_mesh_data cfg m = Except.ok m) := by
  refine ⟨rfl, rfl, fun h => ?_, fun h => ?_⟩ <;> simp [Bed.set_mesh_data, h]

/-- C9 witness: the default 5 by 5 bed with no mesh, and a 1 by 1 mesh
assignment. -/
theorem bed_fail_fast_errors_witness :
    Bed.get_corner_height_checked {} none Corner.front_left 1
        = Except.error BedError.dataNotSet
    ∧ Bed.set_mesh_data {} [[1]] = Except.error BedError.shapeMismatch :=
  ⟨(bed_fail_fast_errors {} Corner.front_left 1 [[1]]).1,
   (bed_fail_fast_errors {} Corner.front_left 1 [[1]]).2.2.1 (by decide)⟩

/-! ## C8: screw simulation is order-independent -/

theorem zip_addScaled_row_comm (r u v : List ℚ) (a b : ℚ) :
    List.zipWith (fun x w => x + b * w) (List.zipWith (fun x w => x + a * w) r u) v
      = List.zipWith (fun x w => x + a * w) (List.zipWith (fun x w => x + b * w) r v) u := by
  induction r generalizing u v with
  | nil => simp
  | cons x xs ih =>
    cases u with
    | nil => cases v <;> simp
    | cons w1 us =>
      cases v with
      | nil => simp
      | cons w2 vs =>
        simp only [List.zipWith_cons_cons]
        congr 1
        · ring
        · exact ih us vs

theorem addScaled_comm (m u v : Mesh) (a b : ℚ) :
    (m.addScaled u a).addScaled v b = (m.addScaled v b).addScaled u a := by
  simp only [Mesh.addScaled, Mesh.map2]
  induction m generalizing u v with
  | nil => simp
  | cons row tl ih =>
    cases u with
    | nil => cases v <;> simp
    | cons ru us =>
      cases v with
      | nil => simp
      | cons rv vs =>
        simp only [List.zipWith_cons_cons]
        congr 1
        · exact zip_addScaled_row_comm row ru rv a b
        · exact ih us vs

theorem simulate_adjustment_comm (cfg : BedConfig) (scfg : ScrewConfig)
    (x y : ScrewAdjustment) (m : Mesh) :
    ScrewSolver.simulate_adjustment cfg scfg x (ScrewSolver.simulate_adjustment cfg scfg y m)
      = ScrewSolver.simulate_adjustment cfg scfg y
          (ScrewSolver.simulate_adjustment cfg scfg x m) := by
  unfold ScrewSolver.simulate_adjustment
  exact addScaled_comm m _ _ _ _

/-- C8.  Simulating a sequence of screw adjustments is invariant under
permutation of the sequence: the per-corner contributions are purely
additive. -/
theorem simulate_sequence_perm_invariant (cfg : BedConfig) (scfg : ScrewConfig)
    (base_mesh : Mesh) (l₁ l₂ : List ScrewAdjustment) (h : l₁.Perm l₂) :
    ScrewSolver.simulate_sequence cfg scfg l₁ base_mesh
      = ScrewSolver.simulate_sequence cfg scfg l₂ base_mesh := by
  induction h generalizing base_mesh with
  | nil => rfl
  | cons x _ ih =>
    simp only [ScrewSolver.simulate_sequence, List.foldl_cons] at ih ⊢
    exact ih _
  | swap x y l =>
    simp only [ScrewSolver.simulate_sequence, List.foldl_cons]
    rw [simulate_adjustment_comm cfg scfg x y base_mesh]
  | trans _ _ ih1 ih2 =>
    rw [ih1, ih2]

/-- C8 witness: two concrete adjustments applied in both orders. -/
theorem simulate_sequence_perm_invariant_witness :
    ([adjFrontLeft, adjBackRight].Perm [adjBackRight, adjFrontLeft])
    ∧ ScrewSolver.simulate_sequence smallCfg {} [adjFrontLeft, adjBackRight] overshootMesh
      = ScrewSolver.simulate_sequence smallCfg {} [adjBackRight, adjFrontLeft] overshootMesh :=
  ⟨by decide,
    simulate_sequence_perm_invariant smallCfg {} overshootMesh _ _ (by decide)⟩

/-! ## C1 and C6: best-stage selection -/

theorem pickBestStage_go (l : List StageResult) (b : StageResult) :
    ∃ m, l.foldl
        (fun acc s =>
          match acc with
          | none => some s
          | some b => if s.deviation < b.deviation then some s else some b)
        (some b) = some m
      ∧ (m = b ∨ m ∈ l) ∧ m.deviation ≤ b.deviation
      ∧ ∀ s ∈ l, m.deviation ≤ s.deviation := by
  induction l generalizing b with
  | nil => exact ⟨b, rfl, Or.inl rfl, le_refl _, by simp⟩
  | cons x xs ih =>
    by_cases hx : x.deviation < b.deviation
    · obtain ⟨m, hm, hmem, hle, hall⟩ := ih x
      refine ⟨m, ?_, ?_, ?_, ?_⟩
      · simpa [hx] using hm
      · rcases hmem with h | h
        · exact Or.inr (by simp [h])
        · exact Or.inr (by simp [h])
      · exact le_trans hle (le_of_lt hx)
      · intro s hs
        rcases List.mem_cons.mp hs with h | h
        · subst h
          exact hle
        · exact hall s h
    · obtain ⟨m, hm, hmem, hle, hall⟩ := ih b
      refine ⟨m, ?_, ?_, hle, ?_⟩
      · simpa [hx] using hm
      · rcases hmem with h | h
        · exact Or.inl h
        · exact Or.inr (by simp [h])
      · intro s hs
        rcases List.mem_cons.mp hs with h | h
        · subst h
          exact le_trans hle (not_lt.mp hx)
        · exact hall s h

theorem pickBestStage_spec (first : StageResult) (rest : List StageResult) :
    ∃ m, pickBestStage (first :: rest) = some m
      ∧ m ∈ first :: rest ∧ m.deviation ≤ first.deviation
      ∧ ∀ s ∈ first :: rest, m.deviation ≤ s.deviation := by
  obtain ⟨m, hm, hmem, hle, hall⟩ := pickBestStage_go rest first
  refine ⟨m, ?_, ?_, hle, ?_⟩
  · simpa [pickBestStage] using hm
  · rcases hmem with h | h
    · simp [h]
    · simp [h]
  · intro s hs
    rcases List.mem_cons.mp hs with h | h
    · subst h
      exact hle
    · exact hall s h

theorem best_stage_choice (first : StageResult) (rest : List StageResult)
    (h : first.enabled = true) (dflt : StageResult) :
    ((pickBestStage ((first :: rest).filter (·.enabled))).getD dflt) ∈ first :: rest
    ∧ ((pickBestStage ((first :: rest).filter (·.enabled))).getD dflt).enabled = true
    ∧ ((pickBestStage ((first :: rest).filter (·.enabled))).getD dflt).deviation
        ≤ first.deviation
    ∧ ∀ s ∈ first :: rest, s.enabled = true →
        ((pickBestStage ((first :: rest).filter (·.enabled))).getD dflt).deviation
          ≤ s.deviation := by
  have hfl : (first :: rest).filter (·.enabled) = first :: rest.filter (·.enabled) := by
    simp [List.filter_cons, h]
  rw [hfl]
  obtain ⟨m, hm, hmem, hle, hall⟩ := pickBestStage_spec first (rest.filter (·.enabled))
  rw [hm]
  simp only [Option.getD_some]
  have hmem' : m ∈ first :: rest := by
    rcases List.mem_cons.mp hmem with hh | hh
    · simp [hh]
    · exact List.mem_cons.mpr (Or.inr (List.mem_of_mem_filter hh))
  have hen : m.enabled = true := by
    rcases List.mem_cons.mp hmem with hh | hh
    · rw [hh]
      exact h
    · simpa using List.of_mem_filter hh
  refine ⟨hmem', hen, hle, ?_⟩
  intro s hs hsen
  rcases List.mem_cons.mp hs with hh | hh
  · rw [hh]
    exact hle
  · exact hall s (List.mem_cons.mpr (Or.inr (List.mem_filter.mpr ⟨hh, by simpa using hsen⟩)))

/-- C6.  The best stage the workflow engine selects never has a larger
deviation than the initial stage: the initial stage is always enabled, and
the selection minimises deviation over the enabled stages. -/
theorem best_stage_le_initial_deviation (cfg : BedConfig) (scfg : ScrewConfig)
    (tcfg : TapeConfig) (bedMesh : Mesh) (settings : Settings) :
    (compute_workflow cfg scfg tcfg bedMesh settings).best_stage.deviation
      ≤ (compute_initial_stage bedMesh).deviation := by
  have h := best_stage_choice (compute_initial_stage bedMesh)
    [(build_belt_stage cfg bedMesh settings bedMesh
        (settings.workflow.enable_belt.getD true)).1,
     (build_screw_stage cfg scfg bedMesh
        (build_belt_stage cfg bedMesh settings bedMesh
          (settings.workflow.enable_belt.getD true)).2
        (settings.workflow.enable_screws.getD true)).1,
     (build_tape_stage cfg tcfg
        (build_screw_stage cfg scfg bedMesh
          (build_belt_stage cfg bedMesh settings bedMesh
            (settings.workflow.enable_belt.getD true)).2
          (settings.workflow.enable_screws.getD true)).2 settings
        (settings.workflow.enable_tape.getD true)).1,
     (build_temperature_stage cfg
        (build_tape_stage cfg tcfg
          (build_screw_stage cfg scfg bedMesh
            (build_belt_stage cfg bedMesh settings bedMesh
              (settings.workflow.enable_belt.getD true)).2
            (settings.workflow.enable_screws.getD true)).2 settings
          (settings.workflow.enable_tape.getD true)).2 settings.environment true
        settings.thermal_model).1]
    rfl (compute_initial_stage bedMesh)
  exact h.2.2.1

/-- C1 (amended).  The selected best stage is an enabled stage of the
pipeline (the always-enabled initial stage included) whose deviation is
minimal among all enabled stages; whether a stage has actions plays no
role. -/
theorem best_stage_min_deviation_enabled (cfg : BedConfig) (scfg : ScrewConfig)
    (tcfg : TapeConfig) (bedMesh : Mesh) (settings : Settings) :
    (compute_workflow cfg scfg tcfg bedMesh settings).best_stage
        ∈ (compute_workflow cfg scfg tcfg bedMesh settings).stages
    ∧ (compute_workflow cfg scfg tcfg bedMesh settings).best_stage.enabled = true
    ∧ ∀ s ∈ (compute_workflow cfg scfg tcfg bedMesh settings).stages, s.enabled = true →
        (compute_workflow cfg scfg tcfg bedMesh settings).best_stage.deviation
          ≤ s.deviation := by
  have h := best_stage_choice (compute_initial_stage bedMesh)
    [(build_belt_stage cfg bedMesh settings bedMesh
        (settings.workflow.enable_belt.getD true)).1,
     (build_screw_stage cfg scfg bedMesh
        (build_belt_stage cfg bedMesh settings bedMesh
          (settings.workflow.enable_belt.getD true)).2
        (settings.workflow.enable_screws.getD true)).1,
     (build_tape_stage cfg tcfg
        (build_screw_stage cfg scfg bedMesh
          (build_belt_stage cfg bedMesh settings bedMesh
            (settings.workflow.enable_belt.getD true)).2
          (settings.workflow.enable_screws.getD true)).2 settings
        (settings.workflow.enable_tape.getD true)).1,
     (build_temperature_stage cfg
        (build_tape_stage cfg tcfg
          (build_screw_stage cfg scfg bedMesh
            (build_belt_stage cfg bedMesh settings bedMesh
              (settings.workflow.enable_belt.getD true)).2
            (settings.workflow.enable_screws.getD true)).2 settings
          (settings.workflow.enable_tape.getD true)).2 settings.environment true
        settings.thermal_model).1]
    rfl (compute_initial_stage bedMesh)
  exact ⟨h.1, h.2.1, h.2.2.2⟩

/-- C1 counterexample: with the belt correction overshooting, the pipeline
contains an enabled non-initial stage with actions, but the engine selects
the initial stage (minimum deviation over all enabled stages, the initial
stage included) instead of that stage. -/
theorem best_stage_ignores_actions_cex :
    ((compute_workflow smallCfg {} {} overshootMesh overshootSettings).stages.filter
        (fun s => s.enabled && decide (s.key ≠ "initial") && decide (s.actions ≠ [])))
        ≠ []
    ∧ (compute_workflow smallCfg {} {} overshootMesh overshootSettings).best_stage.key
        = "initial" := by
  constructor
  · decide
  · decide

/-! ## C10: tape application only raises, and only near spots -/

theorem bumpRow_length (y0 y1 : ℕ) (v : ℚ) (k : ℕ) (row : List ℚ) :
    (bumpRow y0 y1 v k row).length = row.length := by
  induction row generalizing k with
  | nil => rfl
  | cons a tl ih => simp [bumpRow, ih]

theorem bumpRow_getD (y0 y1 : ℕ) (v : ℚ) (k : ℕ) (row : List ℚ) (j : ℕ)
    (hj : j < row.length) :
    (bumpRow y0 y1 v k row).getD j 0
      = row.getD j 0 + (if y0 ≤ k + j ∧ k + j < y1 then v else 0) := by
  induction row generalizing k j with
  | nil => simp at hj
  | cons a tl ih =>
    cases j with
    | zero =>
      simp only [bumpRow, List.getD_cons_zero, Nat.add_zero]
      split <;> simp
    | succ n =>
      have hn : n < tl.length := by simpa using hj
      simp only [bumpRow, List.getD_cons_succ]
      rw [ih (k + 1) n hn]
      have h1 : k + 1 + n = k + (n + 1) := by omega
      rw [h1]

theorem blockAddRows_length (x0 x1 y0 y1 : ℕ) (v : ℚ) (k : ℕ) (m : Mesh) :
    (blockAddRows x0 x1 y0 y1 v k m).length = m.length := by
  induction m generalizing k with
  | nil => rfl
  | cons row tl ih => simp [blockAddRows, ih]

theorem blockAddRows_rows (x0 x1 y0 y1 : ℕ) (v : ℚ) (c : ℕ) :
    ∀ (k : ℕ) (m : Mesh), (∀ row ∈ m, row.length = c) →
      ∀ row ∈ blockAddRows x0 x1 y0 y1 v k m, row.length = c := by
  intro k m
  induction m generalizing k with
  | nil => intro _ row hr; simp [blockAddRows] at hr
  | cons r0 tl ih =>
    intro h row hr
    simp only [blockAddRows, List.mem_cons] at hr
    rcases hr with hr | hr
    · subst hr
      split
      · rw [bumpRow_length]
        exact h r0 (by simp)
      · exact h r0 (by simp)
    · exact ih (k + 1) (fun r hrr => h r (by simp [hrr])) row hr

theorem blockAdd_wf (m : Mesh) (x0 x1 y0 y1 : ℕ) (v : ℚ) (r c : ℕ) (h : m.Wf r c) :
    (m.blockAdd x0 x1 y0 y1 v).Wf r c := by
  constructor
  · rw [Mesh.blockAdd, blockAddRows_length, h.1]
  · exact blockAddRows_rows x0 x1 y0 y1 v c 0 m h.2

theorem blockAddRows_get (x0 x1 y0 y1 : ℕ) (v : ℚ) (k : ℕ) (m : Mesh) (i j : ℕ)
    (hi : i < m.length) (hj : j < (m.getD i []).length) :
    Mesh.get (blockAddRows x0 x1 y0 y1 v k m) i j
      = m.get i j + (if x0 ≤ k + i ∧ k + i < x1 ∧ y0 ≤ j ∧ j < y1 then v else 0) := by
  induction m generalizing k i with
  | nil => simp at hi
  | cons row tl ih =>
    cases i with
    | zero =>
      simp only [blockAddRows, Mesh.get, List.getD_cons_zero, Nat.add_zero] at hj ⊢
      by_cases hx : x0 ≤ k ∧ k < x1
      · rw [if_pos hx]
        rw [bumpRow_getD y0 y1 v 0 row j hj]
        simp only [Nat.zero_add]
        by_cases hy : y0 ≤ j ∧ j < y1
        · rw [if_pos hy, if_pos ⟨hx.1, hx.2, hy.1, hy.2⟩]
        · rw [if_neg hy, if_neg (by tauto)]
      · rw [if_neg hx, if_neg (by tauto)]
        simp
    | succ n =>
      have hi' : n < tl.length := by simpa using hi
      have hj' : j < (tl.getD n []).length := by
        simpa [Mesh.get, List.getD_cons_succ] using hj
      simp only [blockAddRows, Mesh.get, List.getD_cons_succ] at hj ⊢
      have := ih (k + 1) n hi' hj'
      simp only [Mesh.get] at this
      rw [this]
      have h1 : k + 1 + n = k + (n + 1) := by omega
      rw [h1]

theorem blockAdd_get (m : Mesh) (x0 x1 y0 y1 : ℕ) (v : ℚ) (i j : ℕ)
    (hi : i < m.length) (hj : j < (m.getD i []).length) :
    (m.blockAdd x0 x1 y0 y1 v).get i j
      = m.get i j + (if x0 ≤ i ∧ i < x1 ∧ y0 ≤ j ∧ j < y1 then v else 0) := by
  have := blockAddRows_get x0 x1 y0 y1 v 0 m i j hi hj
  simpa using this

theorem wf_row_length (m : Mesh) (r c i : ℕ) (h : m.Wf r c) (hi : i < r) :
    (m.getD i []).length = c := by
  have hi' : i < m.length := by rw [h.1]; exact hi
  rw [List.getD_eq_getElem m [] hi']
  exact h.2 _ (List.getElem_mem hi')

/-- C10.  Applying tape spots with at least one layer and a nonnegative
tape thickness never lowers any cell, and leaves every cell outside all
spots' bound-clamped 3 by 3 neighbourhoods exactly unchanged. -/
theorem apply_spots_monotone_localised (cfg : BedConfig) (tcfg : TapeConfig)
    (base_mesh : Mesh) (spots : List TapeSpot)
    (hwf : base_mesh.Wf cfg.mesh_points_x cfg.mesh_points_y)
    (hl : ∀ s ∈ spots, 1 ≤ s.layers) (ht : 0 ≤ tcfg.tape_thickness) :
    ∀ i j, i < cfg.mesh_points_x → j < cfg.mesh_points_y →
      base_mesh.get i j ≤ (TapeCalculator.apply_spots cfg tcfg base_mesh spots).get i j
      ∧ ((∀ s ∈ spots,
            ¬ (s.x - 1 ≤ i ∧ i < min cfg.mesh_points_x (s.x + 2)
                ∧ s.y - 1 ≤ j ∧ j < min cfg.mesh_points_y (s.y + 2))) →
          (TapeCalculator.apply_spots cfg tcfg base_mesh spots).get i j
            = base_mesh.get i j) := by
  induction spots generalizing base_mesh with
  | nil =>
    intro i j hi hj
    exact ⟨le_refl _, fun _ => rfl⟩
  | cons s rest ih =>
    intro i j hi hj
    have hmem : i < base_mesh.length := by rw [hwf.1]; exact hi
    have hrow : j < (base_mesh.getD i []).length := by
      rw [wf_row_length base_mesh _ _ i hwf hi]
      exact hj
    have hv : (0 : ℚ) ≤ (s.layers : ℚ) * tcfg.tape_thickness := by
      have h1 : (1 : ℤ) ≤ s.layers := hl s (by simp)
      have h2 : (0 : ℚ) ≤ (s.layers : ℚ) := by exact_mod_cast le_trans zero_le_one h1
      exact mul_nonneg h2 ht
    have hstep : TapeCalculator.apply_spots cfg tcfg base_mesh (s :: rest)
        = TapeCalculator.apply_spots cfg tcfg
            (base_mesh.blockAdd (s.x - 1) (min cfg.mesh_points_x (s.x + 2))
              (s.y - 1) (min cfg.mesh_points_y (s.y + 2))
              ((s.layers : ℚ) * tcfg.tape_thickness)) rest := rfl
    have hwf' := blockAdd_wf base_mesh (s.x - 1) (min cfg.mesh_points_x (s.x + 2))
        (s.y - 1) (min cfg.mesh_points_y (s.y + 2))
        ((s.layers : ℚ) * tcfg.tape_thickness) _ _ hwf
    have hget := blockAdd_get base_mesh (s.x - 1) (min cfg.mesh_points_x (s.x + 2))
        (s.y - 1) (min cfg.mesh_points_y (s.y + 2))
        ((s.layers : ℚ) * tcfg.tape_thickness) i j hmem hrow
    have hrest := ih _ hwf' (fun t htm => hl t (by simp [htm])) i j hi hj
    rw [hstep]
    constructor
    · refine le_trans ?_ hrest.1
      rw [hget]
      split
      · linarith
      · linarith
    · intro hout
      rw [hrest.2 (fun t htm => hout t (by simp [htm])), hget,
        if_neg (hout s (by simp)), add_zero]

/-- C10 witness: a two-layer spot at the centre of the 3 by 3 mesh, checked
at the untouched-in-general corner cell. -/
theorem apply_spots_monotone_localised_witness :
    overshootMesh.Wf smallCfg.mesh_points_x smallCfg.mesh_points_y
    ∧ (∀ s ∈ [centreSpot], 1 ≤ s.layers)
    ∧ 0 ≤ ({} : TapeConfig).tape_thickness
    ∧ (overshootMesh.get 0 0
        ≤ (TapeCalculator.apply_spots smallCfg {} overshootMesh [centreSpot]).get 0 0
      ∧ ((∀ s ∈ [centreSpot],
            ¬ (s.x - 1 ≤ 0 ∧ 0 < min smallCfg.mesh_points_x (s.x + 2)
                ∧ s.y - 1 ≤ 0 ∧ 0 < min smallCfg.mesh_points_y (s.y + 2))) →
          (TapeCalculator.apply_spots smallCfg {} overshootMesh [centreSpot]).get 0 0
            = overshootMesh.get 0 0)) :=
  ⟨by decide, by decide, by decide,
    apply_spots_monotone_localised smallCfg {} overshootMesh [centreSpot]
      (by decide) (by decide) (by decide) 0 0 (by decide) (by decide)⟩

/-! ## C5: the low-spot finder -/

theorem sIns_perm (lt : α → α → Bool) (x : α) (l : List α) :
    (sIns lt x l).Perm (x :: l) := by
  induction l with
  | nil => exact List.Perm.refl _
  | cons y ys ih =>
    simp only [sIns]
    split
    · exact (List.Perm.cons y ih).trans (List.Perm.swap x y ys)
    · exact List.Perm.refl _

theorem sortByKey_perm (lt : α → α → Bool) (l : List α) :
    (sortByKey lt l).Perm l := by
  induction l with
  | nil => exact List.Perm.refl _
  | cons x xs ih => exact (sIns_perm lt x _).trans (ih.cons x)

theorem sIns_pairwise (lt : α → α → Bool)
    (asym : ∀ a b, lt a b = true → lt b a = false)
    (letr : ∀ a b c, lt b a = false → lt c b = false → lt c a = false)
    (x : α) (l : List α) (hl : l.Pairwise fun a b => lt b a = false) :
    (sIns lt x l).Pairwise fun a b => lt b a = false := by
  induction l with
  | nil => exact List.Pairwise.cons (by simp) List.Pairwise.nil
  | cons y ys ih =>
    rcases List.pairwise_cons.mp hl with ⟨hy, hys⟩
    simp only [sIns]
    by_cases hc : lt y x = true
    · rw [if_pos hc]
      refine List.pairwise_cons.mpr ⟨?_, ih hys⟩
      intro z hz
      rcases List.mem_cons.mp ((sIns_perm lt x ys).mem_iff.mp hz) with rfl | hz'
      · exact asym y z hc
      · exact hy z hz'
    · have hcf : lt y x = false := by simpa using hc
      rw [if_neg hc]
      refine List.pairwise_cons.mpr ⟨?_, hl⟩
      intro z hz
      rcases List.mem_cons.mp hz with rfl | hz'
      · exact hcf
      · exact letr x y z hcf (hy z hz')

theorem sortByKey_pairwise (lt : α → α → Bool)
    (asym : ∀ a b, lt a b = true → lt b a = false)
    (letr : ∀ a b c, lt b a = false → lt c b = false → lt c a = false)
    (l : List α) :
    (sortByKey lt l).Pairwise fun a b => lt b a = false := by
  induction l with
  | nil => exact List.Pairwise.nil
  | cons x xs ih => exact sIns_pairwise lt asym letr x _ ih

theorem tapeSortLt_asym (a b : TapeSpot) (h : tapeSortLt a b = true) :
    tapeSortLt b a = false := by
  simp only [tapeSortLt, decide_eq_true_eq] at h
  simp only [tapeSortLt, decide_eq_false_iff_not]
  rcases h with h | ⟨he, hd⟩
  · rintro (h2 | ⟨h2e, h2d⟩) <;> omega
  · rintro (h2 | ⟨h2e, h2d⟩)
    · omega
    · linarith

theorem tapeSortLt_letrans (a b c : TapeSpot) (h1 : tapeSortLt b a = false)
    (h2 : tapeSortLt c b = false) : tapeSortLt c a = false := by
  simp only [tapeSortLt, decide_eq_false_iff_not] at h1 h2 ⊢
  push_neg at h1 h2
  push_neg
  refine ⟨by omega, ?_⟩
  intro he
  have hba : b.priority = a.priority := by omega
  have hcb : c.priority = b.priority := by omega
  have := h1.2 hba
  have := h2.2 hcb
  linarith

theorem low_spot_at_some (cfg : BedConfig) (tcfg : TapeConfig) (mh : ℚ) (m : Mesh)
    (x y : ℕ) (s : TapeSpot) (h : low_spot_at cfg tcfg mh m x y = some s) :
    TapeCalculator.is_near_screw cfg x y = false
    ∧ mh - m.get x y > tcfg.min_height_diff
    ∧ s.x = x ∧ s.y = y
    ∧ s.height_diff = mh - m.get x y
    ∧ s.layers = max 1 ⌈(mh - m.get x y) / tcfg.tape_thickness⌉
    ∧ s.priority = TapeCalculator.calculate_priority (mh - m.get x y)
    ∧ s.area_size = TapeCalculator.calculate_area_size cfg (mh - m.get x y) := by
  unfold low_spot_at at h
  by_cases h1 : TapeCalculator.is_near_screw cfg x y = true
  · rw [if_pos h1] at h
    exact absurd h (by simp)
  · rw [if_neg h1] at h
    by_cases h2 : mh - m.get x y > tcfg.min_height_diff
    · rw [if_pos h2] at h
      have hs := (Option.some_inj.mp h).symm
      subst hs
      exact ⟨by simpa using h1, h2, rfl, rfl, rfl, rfl, rfl, rfl⟩
    · rw [if_neg h2] at h
      exact absurd h (by simp)

theorem low_spot_at_eq_some_self (cfg : BedConfig) (tcfg : TapeConfig) (mh : ℚ) (m : Mesh)
    (x y : ℕ) (h1 : TapeCalculator.is_near_screw cfg x y = false)
    (h2 : mh - m.get x y > tcfg.min_height_diff) :
    low_spot_at cfg tcfg mh m x y
      = some
          { x := x
            y := y
            layers := max 1 ⌈(mh - m.get x y) / tcfg.tape_thickness⌉
            height_diff := mh - m.get x y
            priority := TapeCalculator.calculate_priority (mh - m.get x y)
            area_size := TapeCalculator.calculate_area_size cfg (mh - m.get x y) } := by
  unfold low_spot_at
  rw [if_neg (by simp [h1]), if_pos h2]

theorem countP_low_spot_row (cfg : BedConfig) (tcfg : TapeConfig) (mh : ℚ) (m : Mesh)
    (x tx ty : ℕ) (n : ℕ) :
    ((List.range n).filterMap fun y => low_spot_at cfg tcfg mh m x y).countP
        (fun s => decide (s.x = tx ∧ s.y = ty))
      = if x = tx ∧ ty < n ∧ TapeCalculator.is_near_screw cfg x ty = false
          ∧ mh - m.get x ty > tcfg.min_height_diff then 1 else 0 := by
  induction n with
  | zero => simp
  | succ k ih =>
    rw [List.range_succ, List.filterMap_append, List.countP_append, ih]
    have hsingle : ((List.filterMap (fun y => low_spot_at cfg tcfg mh m x y) [k]).countP
          (fun s => decide (s.x = tx ∧ s.y = ty)))
        = if x = tx ∧ k = ty ∧ TapeCalculator.is_near_screw cfg x k = false
            ∧ mh - m.get x k > tcfg.min_height_diff then 1 else 0 := by
      rcases hk : low_spot_at cfg tcfg mh m x k with _ | s
      · simp only [List.filterMap_cons, hk, List.filterMap_nil, List.countP_nil]
        split
        · rename_i hcond
          exfalso
          rw [low_spot_at_eq_some_self cfg tcfg mh m x k hcond.2.2.1 hcond.2.2.2] at hk
          exact absurd hk (by simp)
        · rfl
      · obtain ⟨h1, h2, hx, hy, _, _, _, _⟩ := low_spot_at_some cfg tcfg mh m x k s hk
        simp only [List.filterMap_cons, hk, List.filterMap_nil, List.countP_cons,
          List.countP_nil, Nat.zero_add]
        by_cases hp : s.x = tx ∧ s.y = ty
        · obtain ⟨hpx, hpy⟩ := hp
          have hkty : k = ty := by omega
          subst hkty
          rw [if_pos (by simp [hpx, hpy]), if_pos ⟨by omega, rfl, h1, h2⟩]
        · rw [if_neg (by simpa using hp)]
          rw [if_neg (by
            rintro ⟨e1, e2, _, _⟩
            exact hp ⟨by omega, by omega⟩)]
    rw [hsingle]
    by_cases hx : x = tx
    · subst hx
      by_cases hk2 : k = ty
      · subst hk2
        by_cases hq : TapeCalculator.is_near_screw cfg x k = false
            ∧ mh - m.get x k > tcfg.min_height_diff
        · rw [if_neg (by omega), if_pos ⟨rfl, rfl, hq.1, hq.2⟩,
            if_pos ⟨rfl, by omega, hq.1, hq.2⟩]
        · rw [if_neg (by tauto), if_neg (by tauto), if_neg (by tauto)]
      · by_cases hty : ty < k
        · by_cases hq : TapeCalculator.is_near_screw cfg x ty = false
              ∧ mh - m.get x ty > tcfg.min_height_diff
          · rw [if_pos ⟨rfl, hty, hq.1, hq.2⟩, if_neg (by tauto),
              if_pos ⟨rfl, by omega, hq.1, hq.2⟩]
          · rw [if_neg (by tauto), if_neg (by tauto), if_neg (by tauto)]
        · rw [if_neg (by omega), if_neg (by tauto), if_neg (by omega)]
    · rw [if_neg (by tauto), if_neg (by tauto), if_neg (by tauto)]

theorem countP_find_low_spots_unsorted (cfg : BedConfig) (tcfg : TapeConfig) (m : Mesh)
    (tx ty : ℕ) :
    (find_low_spots_unsorted cfg tcfg m).countP (fun s => decide (s.x = tx ∧ s.y = ty))
      = if tx < cfg.mesh_points_x ∧ ty < cfg.mesh_points_y
          ∧ TapeCalculator.is_near_screw cfg tx ty = false
          ∧ m.mean - m.get tx ty > tcfg.min_height_diff then 1 else 0 := by
  unfold find_low_spots_unsorted
  suffices h : ∀ n : ℕ,
      ((List.range n).flatMap fun x =>
          (List.range cfg.mesh_points_y).filterMap fun y =>
            low_spot_at cfg tcfg m.mean m x y).countP
          (fun s => decide (s.x = tx ∧ s.y = ty))
        = if tx < n ∧ ty < cfg.mesh_points_y
            ∧ TapeCalculator.is_near_screw cfg tx ty = false
            ∧ m.mean - m.get tx ty > tcfg.min_height_diff then 1 else 0 by
    exact h cfg.mesh_points_x
  intro n
  induction n with
  | zero => simp
  | succ k ih =>
    rw [List.range_succ, List.flatMap_append, List.countP_append, ih]
    have hsingle : (([k].flatMap fun x =>
          (List.range cfg.mesh_points_y).filterMap fun y =>
            low_spot_at cfg tcfg m.mean m x y).countP
          (fun s => decide (s.x = tx ∧ s.y = ty)))
        = if k = tx ∧ ty < cfg.mesh_points_y
            ∧ TapeCalculator.is_near_screw cfg k ty = false
            ∧ m.mean - m.get k ty > tcfg.min_height_diff then 1 else 0 := by
      simp only [List.flatMap_cons, List.flatMap_nil, List.append_nil]
      exact countP_low_spot_row cfg tcfg m.mean m k tx ty cfg.mesh_points_y
    rw [hsingle]
    by_cases hk : k = tx
    · subst hk
      rw [if_neg (by rintro ⟨h, _⟩; omega), Nat.zero_add]
      by_cases hq : ty < cfg.mesh_points_y
          ∧ TapeCalculator.is_near_screw cfg k ty = false
          ∧ m.mean - m.get k ty > tcfg.min_height_diff
      · rw [if_pos ⟨rfl, hq.1, hq.2.1, hq.2.2⟩, if_pos ⟨by omega, hq.1, hq.2.1, hq.2.2⟩]
      · rw [if_neg (by tauto), if_neg (by tauto)]
    · have hzero : ¬ (k = tx ∧ ty < cfg.mesh_points_y
          ∧ TapeCalculator.is_near_screw cfg k ty = false
          ∧ m.mean - m.get k ty > tcfg.min_height_diff) := by tauto
      rw [if_neg hzero, Nat.add_zero]
      by_cases htx : tx < k
      · by_cases hq : ty < cfg.mesh_points_y
            ∧ TapeCalculator.is_near_screw cfg tx ty = false
            ∧ m.mean - m.get tx ty > tcfg.min_height_diff
        · rw [if_pos ⟨htx, hq.1, hq.2.1, hq.2.2⟩, if_pos ⟨by omega, hq.1, hq.2.1, hq.2.2⟩]
        · rw [if_neg (by tauto), if_neg (by tauto)]
      · rw [if_neg (by rintro ⟨h, _⟩; omega), if_neg (by rintro ⟨h, _⟩; omega)]

/-- C5.  `find_low_spots` returns exactly one spot per grid cell off the
corner screws whose value lies below the mesh mean by more than the
threshold; each spot carries the deficit, the tape layer count
`max 1 (ceil (deficit / tape_thickness))` and the priority tier, and the
result is sorted by priority ascending then deficit descending. -/
theorem find_low_spots_spec (cfg : BedConfig) (tcfg : TapeConfig) (m : Mesh) :
    (∀ tx ty : ℕ,
      (TapeCalculator.find_low_spots cfg tcfg m).countP
          (fun s => decide (s.x = tx ∧ s.y = ty))
        = if tx < cfg.mesh_points_x ∧ ty < cfg.mesh_points_y
            ∧ TapeCalculator.is_near_screw cfg tx ty = false
            ∧ m.mean - m.get tx ty > tcfg.min_height_diff then 1 else 0)
    ∧ (∀ s ∈ TapeCalculator.find_low_spots cfg tcfg m,
        s.height_diff = m.mean - m.get s.x s.y
        ∧ s.height_diff > tcfg.min_height_diff
        ∧ s.layers = max 1 ⌈s.height_diff / tcfg.tape_thickness⌉
        ∧ s.priority
            = (if s.height_diff > 0.3 then 1 else if s.height_diff > 0.2 then 2 else 3))
    ∧ (TapeCalculator.find_low_spots cfg tcfg m).Pairwise
        (fun a b => a.priority < b.priority
          ∨ (a.priority = b.priority ∧ b.height_diff ≤ a.height_diff)) := by
  refine ⟨?_, ?_, ?_⟩
  · intro tx ty
    rw [TapeCalculator.find_low_spots,
      (sortByKey_perm tapeSortLt (find_low_spots_unsorted cfg tcfg m)).countP_eq]
    exact countP_find_low_spots_unsorted cfg tcfg m tx ty
  · intro s hs
    rw [TapeCalculator.find_low_spots,
      (sortByKey_perm tapeSortLt (find_low_spots_unsorted cfg tcfg m)).mem_iff] at hs
    unfold find_low_spots_unsorted at hs
    rw [List.mem_flatMap] at hs
    obtain ⟨x, _, hs⟩ := hs
    rw [List.mem_filterMap] at hs
    obtain ⟨y, _, hsome⟩ := hs
    obtain ⟨h1, h2, hx, hy, hd, hlay, hpr, _⟩ :=
      low_spot_at_some cfg tcfg m.mean m x y s hsome
    subst hx
    subst hy
    refine ⟨hd, by rwa [hd], by rwa [hd], ?_⟩
    rw [hpr, hd, TapeCalculator.calculate_priority]
  · have hpw := sortByKey_pairwise tapeSortLt tapeSortLt_asym tapeSortLt_letrans
      (find_low_spots_unsorted cfg tcfg m)
    rw [TapeCalculator.find_low_spots]
    refine hpw.imp ?_
    intro a b h
    simp only [tapeSortLt, decide_eq_false_iff_not] at h
    push_neg at h
    rcases lt_or_eq_of_le h.1 with hlt | heq
    · exact Or.inl hlt
    · exact Or.inr ⟨heq, h.2 heq.symm⟩

/-! ## C7: the analyzer's two-stage forecast -/

/-- C7 (amended).  `find_optimal_strategy` simulates the post-screw mesh
with the analyzer's own distance-falloff influence model (which in general
differs from the screw solver's corner-weight simulation), reports tape as
needed exactly when the post-screw deviation exceeds the tape threshold,
and forecasts the final deviation as the post-screw deviation, or the tape
threshold when tape is still needed. -/
theorem find_optimal_strategy_spec (cfg : BedConfig) (scfg : ScrewConfig)
    (screw_threshold tape_threshold : ℝ) (m : RealModel.MeshF) :
    (RealModel.find_optimal_strategy cfg scfg screw_threshold tape_threshold m).simulated_bed_after_screws
        = RealModel.estimate_bed_after_screw_adjustment cfg scfg m
    ∧ (RealModel.find_optimal_strategy cfg scfg screw_threshold tape_threshold m).deviation_after_screws
        = RealModel.maxAbsDeviation cfg (RealModel.estimate_bed_after_screw_adjustment cfg scfg m)
    ∧ ((RealModel.find_optimal_strategy cfg scfg screw_threshold tape_threshold m).needs_tape
        ↔ (RealModel.find_optimal_strategy cfg scfg screw_threshold tape_threshold m).deviation_after_screws
            > tape_threshold)
    ∧ (RealModel.find_optimal_strategy cfg scfg screw_threshold tape_threshold m).expected_final_deviation
        = if (RealModel.find_optimal_strategy cfg scfg screw_threshold tape_threshold m).deviation_after_screws
              > tape_threshold
          then tape_threshold
          else (RealModel.find_optimal_strategy cfg scfg screw_threshold tape_threshold m).deviation_after_screws :=
  ⟨rfl, rfl, Iff.rfl, rfl⟩

/-- C7 counterexample: on a 4 by 5 bed whose front-left block sits 0.4 mm
high, the analyzer's internal post-screw simulation and the screw solver's
corner-weight simulation of the same adjustments disagree at grid point
(0, 4): the distance-falloff influence leaks a fifth of the front-left
correction there, while the bilinear front-left weight is 0. -/
theorem estimate_differs_from_solver_sim_cex :
    RealModel.estimate_bed_after_screw_adjustment forecastCfg {} forecastMesh 0 4
      ≠ RealModel.solver_weight_simulation forecastCfg {} forecastMesh 0 4 := by
  have hmean : RealModel.meshMean forecastCfg forecastMesh = 2/25 := by
    unfold RealModel.meshMean RealModel.blockMean RealModel.blockSum RealModel.rangeSum
      forecastCfg forecastMesh
    norm_num [List.range_succ]
  have hcorner : ∀ c : Corner, c ≠ Corner.front_left →
      RealModel.get_corner_height forecastCfg forecastMesh c = 0 := by
    intro c hc
    cases c with
    | front_left => exact absurd rfl hc
    | front_right =>
      unfold RealModel.get_corner_height RealModel.blockMean RealModel.blockSum
        RealModel.rangeSum Corner.coords forecastCfg forecastMesh
      norm_num [List.range_succ]
    | back_left =>
      unfold RealModel.get_corner_height RealModel.blockMean RealModel.blockSum
        RealModel.rangeSum Corner.coords forecastCfg forecastMesh
      norm_num [List.range_succ]
    | back_right =>
      unfold RealModel.get_corner_height RealModel.blockMean RealModel.blockSum
        RealModel.rangeSum Corner.coords forecastCfg forecastMesh
      norm_num [List.range_succ]
  have hchFL : RealModel.corner_height_change forecastCfg {} forecastMesh Corner.front_left
      = -(8/25) := by
    have hFL : RealModel.get_corner_height forecastCfg forecastMesh Corner.front_left
        = 2/5 := by
      unfold RealModel.get_corner_height RealModel.blockMean RealModel.blockSum
        RealModel.rangeSum Corner.coords forecastCfg forecastMesh
      norm_num [List.range_succ]
    have hmm : (({} : ScrewConfig).mmPerMinute : ℝ) = 7/600 := by
      norm_num [ScrewConfig.mmPerMinute]
    have habs : |(2:ℝ)/5 - 2/25| = 8/25 := by
      rw [show (2:ℝ)/5 - 2/25 = 8/25 by norm_num]
      exact abs_of_pos (by norm_num)
    have hadj : RealModel.calculate_adjustment {} ((2:ℝ)/5) (2/25)
        = (192/7, RotationDirection.clockwise) := by
      unfold RealModel.calculate_adjustment
      rw [hmm, show (({} : ScrewConfig).min_adjust : ℝ) = 1/10 by norm_num,
        show (({} : ScrewConfig).max_adjust : ℝ) = 2 by norm_num]
      rw [if_neg (by rw [habs]; norm_num)]
      refine Prod.ext ?_ ?_
      · show min (|(2:ℝ)/5 - 2/25| / (7/600)) (2 / (7/600)) = 192/7
        rw [habs, min_eq_left (by norm_num)]
        norm_num
      · show (if (2:ℝ)/5 - 2/25 > 0 then RotationDirection.clockwise
            else RotationDirection.counterclockwise) = RotationDirection.clockwise
        rw [if_pos (by norm_num)]
    unfold RealModel.corner_height_change RealModel.height_change_from_minutes
    rw [hFL, hmean]
    simp only [hadj, hmm, Prod.fst, Prod.snd]
    norm_num
  have hch0 : ∀ c : Corner, c ≠ Corner.front_left →
      RealModel.corner_height_change forecastCfg {} forecastMesh c = 0 := by
    intro c hc
    have hadj0 : RealModel.calculate_adjustment {} (0:ℝ) (2/25)
        = (0, RotationDirection.clockwise) := by
      unfold RealModel.calculate_adjustment
      rw [if_pos (by
        rw [show ((({} : ScrewConfig).min_adjust : ℚ) : ℝ) = 1/10 by norm_num]
        rw [show (0:ℝ) - 2/25 = -(2/25) by norm_num, abs_neg]
        rw [abs_of_pos (by norm_num : (0:ℝ) < 2/25)]
        norm_num)]
    unfold RealModel.corner_height_change RealModel.height_change_from_minutes
    rw [hcorner c hc, hmean]
    simp only [hadj0, Prod.fst, Prod.snd]
    norm_num
  have hinfl : RealModel.influence forecastCfg 0 0 0 4 = 1/5 := by
    unfold RealModel.influence forecastCfg
    norm_num
    rw [show (16:ℝ) = 4^2 by norm_num, Real.sqrt_sq (by norm_num : (0:ℝ) ≤ 4)]
    rw [show (25:ℝ) = 5^2 by norm_num, Real.sqrt_sq (by norm_num : (0:ℝ) ≤ 5)]
    rw [max_eq_right (by norm_num)]
    norm_num
  have hE : RealModel.estimate_bed_after_screw_adjustment forecastCfg {} forecastMesh 0 4
      = -(8/125) := by
    unfold RealModel.estimate_bed_after_screw_adjustment cornersList
    simp only [List.map_cons, List.map_nil, List.sum_cons, List.sum_nil, Corner.coords]
    rw [hchFL, hch0 Corner.front_right (by decide), hch0 Corner.back_left (by decide),
      hch0 Corner.back_right (by decide), hinfl]
    norm_num [forecastMesh]
  have hS : RealModel.solver_weight_simulation forecastCfg {} forecastMesh 0 4 = 0 := by
    unfold RealModel.solver_weight_simulation cornersList
    simp only [List.map_cons, List.map_nil, List.sum_cons, List.sum_nil]
    rw [hchFL, hch0 Corner.front_right (by decide), hch0 Corner.back_left (by decide),
      hch0 Corner.back_right (by decide),
      show corner_weight forecastCfg.mesh_points_x forecastCfg.mesh_points_y
        Corner.front_left 0 4 = 0 by decide]
    norm_num [forecastMesh]
  rw [hE, hS]
  norm_num
